import Mathlib

/-!
Portfolio site script: form validation and contact-form submission.

A shallow embedding of `src/js/script.js` (functions `validateField`,
`validateForm`, `showErrorMessage`, `removeErrorMessage`, `showNotification`,
the submit handler installed by `initContactForm` with the promise chain on
its request, and `initThemeToggle` with its click listener), followed by the
properties proved about it.

Conventions of the embedding.

* A JavaScript string is a `List Char`.  `String.prototype.length` counts
  UTF-16 code units, so `jsLength` gives two units to every character above
  the basic plane.  Strings holding unpaired surrogates are outside the model.
* The two regular expressions of `validateField` carry no flags and are
  anchored with `^` and `$`, so `RegExp.prototype.test` decides membership of
  the whole string in the language of the pattern.  The character classes used
  (`\s`, `\d`, negated classes) accept a supplementary character exactly when
  they accept both of its surrogates, so matching over characters agrees with
  matching over code units.
* The page is explicit state: the element tree (with the `.error-message`
  elements in it), the inline border colour of every field, the submit
  button, the notifications on screen, the requests handed to `fetch` and the
  address the window was sent to.
-/

namespace Portfolio

/-! ## JavaScript strings -/

/-- White space and line terminators of ECMAScript: the characters removed by
`String.prototype.trim`, and the class `\s` of a regular expression. -/
def isJSWhiteSpace (c : Char) : Bool :=
  let n := c.toNat
  n == 0x09 || n == 0x0A || n == 0x0B || n == 0x0C || n == 0x0D || n == 0x20 ||
  n == 0xA0 || n == 0x1680 || (0x2000 ≤ n && n ≤ 0x200A) || n == 0x2028 ||
  n == 0x2029 || n == 0x202F || n == 0x205F || n == 0x3000 || n == 0xFEFF

/-- `String.prototype.trim`. -/
def jsTrim (s : List Char) : List Char :=
  ((s.dropWhile isJSWhiteSpace).reverse.dropWhile isJSWhiteSpace).reverse

/-- `String.prototype.length`: the number of UTF-16 code units. -/
def jsLength : List Char → Nat
  | [] => 0
  | c :: cs => (if c.toNat < 0x10000 then 1 else 2) + jsLength cs

/-- Value of `c` as a digit in the given radix, if it is one. -/
def digitValue (radix : Nat) (c : Char) : Option Nat :=
  let n := c.toNat
  let v :=
    if 48 ≤ n && n ≤ 57 then some (n - 48)
    else if 97 ≤ n && n ≤ 122 then some (n - 87)
    else if 65 ≤ n && n ≤ 90 then some (n - 55)
    else none
  match v with
  | some d => if d < radix then some d else none
  | none => none

/-- Reads the longest run of radix digits at the front of the string; `none`
when there is no digit at all. -/
def readDigits (radix : Nat) : List Char → Option Nat → Option Nat
  | [], acc => acc
  | c :: cs, acc =>
    match digitValue radix c with
    | some d => readDigits radix cs (some (acc.getD 0 * radix + d))
    | none => acc

/-- Number of binary digits of `n`, with `fuel` steps to spend. -/
def bitLengthAux : Nat → Nat → Nat
  | 0, _ => 0
  | fuel + 1, n => if n = 0 then 0 else bitLengthAux fuel (n / 2) + 1

/-- Number of binary digits of `n`. -/
def bitLength (n : Nat) : Nat := bitLengthAux n n

/-- The JavaScript number nearest to the natural number `n`: `n` itself below
2^53, and otherwise `n` rounded to 53 significant binary digits, a tie going
to the even significand; `none` when the result is `Infinity`. -/
def roundToDouble (n : Nat) : Option Nat :=
  if n < 2 ^ 53 then some n
  else
    let e := bitLength n - 53
    let q := n / 2 ^ e
    let r := n % 2 ^ e
    let half := 2 ^ (e - 1)
    let q1 := if half < r || (r == half && q % 2 == 1) then q + 1 else q
    if bitLength (q1 * 2 ^ e) ≤ 1024 then some (q1 * 2 ^ e) else none

/-- A JavaScript number that `parseInt` can return: `NaN`, an integer-valued
finite number given by its exact value, or an infinity. -/
inductive JSNumber where
  | nan : JSNumber
  | finite (n : Int) : JSNumber
  | infinite (negative : Bool) : JSNumber
  deriving DecidableEq

/-- `parseInt(string)` with no radix argument: leading white space is skipped,
a sign is read, a `0x` or `0X` head switches to radix 16, the longest run of
digits is converted, and the integer read is rounded to the nearest number
(all digits count; `-0` is not told apart from `0`, the handler prints and
compares them alike). -/
def parseInt (s : List Char) : JSNumber :=
  let s1 := s.dropWhile isJSWhiteSpace
  let signed : Bool × List Char :=
    match s1 with
    | '-' :: r => (true, r)
    | '+' :: r => (false, r)
    | _ => (false, s1)
  let based : Nat × List Char :=
    match signed.2 with
    | '0' :: 'x' :: r => (16, r)
    | '0' :: 'X' :: r => (16, r)
    | r => (10, r)
  match readDigits based.1 based.2 none with
  | some n =>
    match roundToDouble n with
    | some v => JSNumber.finite (if signed.1 then - (v : Int) else (v : Int))
    | none => JSNumber.infinite signed.1
  | none => JSNumber.nan

/-- The comparison `length < x` of a string length with a number. -/
def JSNumber.above (x : JSNumber) (length : Nat) : Bool :=
  match x with
  | JSNumber.nan => false
  | JSNumber.finite n => decide ((length : Int) < n)
  | JSNumber.infinite negative => !negative

/-- Decimal digits of a natural number. -/
def decimal (n : Nat) : List Char := (toString n).toList

/-- Distance between two natural numbers. -/
def gapTo (a b : Nat) : Nat := if a ≤ b then b - a else a - b

/-- The candidates `(k, s, j)` of `Number::toString` for the number `x`: `s`
has `k` decimal digits, at most 17, and `x` is the number nearest to
`s * 10 ^ j`. -/
def digitCandidates (x : Nat) : List (Nat × Nat × Nat) :=
  let d := (decimal x).length
  (List.range 17).flatMap fun k0 =>
    [d - (k0 + 1), d + 1 - (k0 + 1)].flatMap fun j =>
      ([x / 10 ^ j, x / 10 ^ j + 1].filter fun s =>
        10 ^ k0 ≤ s && s < 10 ^ (k0 + 1) && roundToDouble (s * 10 ^ j) == some x).map
        fun s => (k0 + 1, s, j)

/-- Is the candidate `a` to be preferred to `b`: fewer digits, then a value
closer to `x`, then an even `s`. -/
def betterCandidate (x : Nat) (a b : Nat × Nat × Nat) : Bool :=
  a.1 < b.1 ||
  (a.1 == b.1 &&
    (gapTo (a.2.1 * 10 ^ a.2.2) x < gapTo (b.2.1 * 10 ^ b.2.2) x ||
      (gapTo (a.2.1 * 10 ^ a.2.2) x == gapTo (b.2.1 * 10 ^ b.2.2) x && a.2.1 % 2 == 0)))

/-- The candidate `Number::toString` prints. -/
def bestCandidate (x : Nat) : Option (Nat × Nat × Nat) :=
  (digitCandidates x).foldl
    (fun best c =>
      match best with
      | none => some c
      | some b => if betterCandidate x c b then some c else some b)
    none

/-- `Number::toString` in radix 10 on a non-negative integer-valued number.
Below 2^53 every integer is a number of its own and is printed by its decimal
digits.  From there on the shortest digit string that reads back as the same
number is printed, followed by zeros up to 21 digits and in exponent form
beyond. -/
def printNat (x : Nat) : List Char :=
  if x < 2 ^ 53 then decimal x
  else
    match bestCandidate x with
    | none => decimal x
    | some (k, s, j) =>
      if k + j ≤ 21 then decimal s ++ List.replicate j '0'
      else
        match decimal s with
        | [] => []
        | c :: rest =>
          (if rest = [] then [c] else c :: '.' :: rest) ++ "e+".toList ++ decimal (k + j - 1)

/-- Text of a number inside a template literal. -/
def numberToString : JSNumber → List Char
  | JSNumber.nan => "NaN".toList
  | JSNumber.finite n => (if n < 0 then ['-'] else []) ++ printNat n.natAbs
  | JSNumber.infinite negative => if negative then "-Infinity".toList else "Infinity".toList

/-! ## Regular expressions -/

/-- The fragment of regular-expression syntax used by the script. -/
inductive Regex where
  | empty : Regex
  | eps : Regex
  | cls (p : Char → Bool) : Regex
  | seq (a b : Regex) : Regex
  | alt (a b : Regex) : Regex
  | star (a : Regex) : Regex

namespace Regex

/-- One or more repetitions: `a+`. -/
def plus (a : Regex) : Regex := seq a (star a)

/-- A literal character. -/
def chr (c : Char) : Regex := cls (fun d => d == c)

/-- Does the pattern accept the empty string? -/
def nullable : Regex → Bool
  | empty => false
  | eps => true
  | cls _ => false
  | seq a b => nullable a && nullable b
  | alt a b => nullable a || nullable b
  | star _ => true

/-- Brzozowski derivative of a pattern by one character. -/
def deriv (c : Char) : Regex → Regex
  | empty => empty
  | eps => empty
  | cls p => if p c then eps else empty
  | seq a b => if nullable a then alt (seq (deriv c a) b) (deriv c b) else seq (deriv c a) b
  | alt a b => alt (deriv c a) (deriv c b)
  | star a => seq (deriv c a) (star a)

/-- `pattern.test(s)` for an anchored, flag-free pattern. -/
def test (r : Regex) : List Char → Bool
  | [] => nullable r
  | c :: cs => test (deriv c r) cs

/-- The set of strings a pattern denotes. -/
def Lang : Regex → List Char → Prop
  | empty, _ => False
  | eps, s => s = []
  | cls p, s => ∃ c, s = [c] ∧ p c = true
  | seq a b, s => ∃ u v, s = u ++ v ∧ Lang a u ∧ Lang b v
  | alt a b, s => Lang a s ∨ Lang b s
  | star a, s => ∃ parts : List (List Char), s = parts.flatten ∧ ∀ u ∈ parts, Lang a u

end Regex

/-- The pattern `/^[^\s@]+@[^\s@]+\.[^\s@]+$/` of `validateField`. -/
def emailRegex : Regex :=
  let c := Regex.cls (fun d => !isJSWhiteSpace d && d != '@')
  Regex.seq (Regex.plus c) (Regex.seq (Regex.chr '@')
    (Regex.seq (Regex.plus c) (Regex.seq (Regex.chr '.') (Regex.plus c))))

/-- Character class of the pattern `/^[\d\s+()-]+$/`. -/
def isPhoneChar (d : Char) : Bool :=
  (48 ≤ d.toNat && d.toNat ≤ 57) || isJSWhiteSpace d ||
  d == '+' || d == '(' || d == ')' || d == '-'

/-- The pattern `/^[\d\s+()-]+$/` of `validateField`. -/
def phoneRegex : Regex :=
  Regex.plus (Regex.cls isPhoneChar)

/-! ## The element tree -/

/-- The elements of the document that matter to validation, as a forest in
first-child / next-sibling form.  `elem id kids next` is an element known by
the identity `id`, with its children `kids`, followed by its later siblings
`next`.  `err text next` is an element of class `error-message` holding
`text`, such as the `div` built by `showErrorMessage`. -/
inductive Dom where
  | nil : Dom
  | elem (id : Nat) (kids next : Dom) : Dom
  | err (text : List Char) (next : Dom) : Dom
  deriving DecidableEq, Repr

namespace Dom

/-- Is there an `.error-message` element in the forest? -/
def hasErr : Dom → Bool
  | nil => false
  | elem _ kids next => hasErr kids || hasErr next
  | err _ _ => true

/-- Texts of the `.error-message` elements of the forest, in document order. -/
def errs : Dom → List (List Char)
  | nil => []
  | elem _ kids next => errs kids ++ errs next
  | err text next => text :: errs next

/-- Removes the first `.error-message` element in document order, the one
`querySelector(".error-message")` returns; the forest is unchanged when there
is none. -/
def dropFirstErr : Dom → Dom
  | nil => nil
  | elem id kids next =>
    if hasErr kids then elem id (dropFirstErr kids) next
    else elem id kids (dropFirstErr next)
  | err _ next => next

/-- Adds an `.error-message` element after the last sibling: `appendChild` on
the parent whose children these are. -/
def pushErr (text : List Char) : Dom → Dom
  | nil => err text nil
  | elem id kids next => elem id kids (pushErr text next)
  | err t next => err t (pushErr text next)

/-- Is the element `p` in the forest? -/
def hasElem (p : Nat) : Dom → Bool
  | nil => false
  | elem id kids next => id == p || hasElem p kids || hasElem p next
  | err _ next => hasElem p next

/-- Children of the element `p` (of its first occurrence in document order). -/
def kidsOf (p : Nat) : Dom → Option Dom
  | nil => none
  | elem id kids next =>
    if id = p then some kids
    else match kidsOf p kids with
      | some k => some k
      | none => kidsOf p next
  | err _ next => kidsOf p next

/-- Rewrites the children of the element `p` with `f`, leaving the rest of the
forest as it is. -/
def atKids (p : Nat) (f : Dom → Dom) : Dom → Dom
  | nil => nil
  | elem id kids next =>
    if id = p then elem id (f kids) next
    else if hasElem p kids then elem id (atKids p f kids) next
    else elem id kids (atKids p f next)
  | err t next => err t (atKids p f next)

/-- The forest without its `.error-message` elements: the part of the document
validation never changes. -/
def skel : Dom → Dom
  | nil => nil
  | elem id kids next => elem id (skel kids) (skel next)
  | err _ next => skel next

/-- Is the element `q` a descendant of the element `p`? -/
def inside (q p : Nat) (d : Dom) : Bool :=
  match kidsOf p d with
  | some k => hasElem q k
  | none => false

/-- The elements `p` and `q` are different and neither lies inside the other. -/
def apart (p q : Nat) (d : Dom) : Bool :=
  p != q && !inside q p d && !inside p q d

/-- Texts of the `.error-message` elements below the element `p`. -/
def errsUnder (p : Nat) (d : Dom) : List (List Char) :=
  match kidsOf p d with
  | some k => errs k
  | none => []

end Dom

/-! ## Fields, forms and the page -/

/-- A form control.  `tag` is the element name, `type` the value of its `type`
property, `required` whether it has the `required` attribute, `minlength` the
text of its `minlength` attribute when it has one, `parent` the identity of
its parent element. -/
structure Field where
  id : Nat
  tag : String
  type : String
  value : List Char
  required : Bool
  minlength : Option (List Char)
  parent : Nat

/-- The own enumerable properties of the plain object the submit handler
fills, all of them strings: property name and value, in the order of first
assignment.  The order in which `JSON.stringify` prints the members is not
modelled; what `JSON.parse` gives back for the text does not depend on it. -/
abbrev JSObject := List (List Char × List Char)

/-- A request handed to `fetch`.  `body` is the JSON document sent, given as
the object `JSON.parse` reads from the text `JSON.stringify` wrote. -/
structure Request where
  url : String
  method : String
  headers : List (String × String)
  body : JSObject
  deriving DecidableEq

/-- The state of the page.  `validated` is a ghost component: it records, in
order, the identity of every field `validateField` has been entered with.
`notifications` are the `.notification` elements of the document, in document
order, each with its text and type.  `pending` holds, for every `fetch` whose
promise has not settled, the button content its callbacks captured as
`originalContent`. -/
structure Page where
  tree : Dom
  border : Nat → String
  validated : List Nat
  btnHTML : String
  btnDisabled : Bool
  requests : List Request
  pending : List String
  notifications : List (List Char × String)
  location : Option String

/-- `removeErrorMessage(field)`. -/
def removeErrorMessage (pg : Page) (field : Field) : Page :=
  { pg with tree := pg.tree.atKids field.parent Dom.dropFirstErr }

/-- `showErrorMessage(field, message)`. -/
def showErrorMessage (pg : Page) (field : Field) (message : List Char) : Page :=
  let pg1 := removeErrorMessage pg field
  { pg1 with tree := pg1.tree.atKids field.parent (Dom.pushErr message) }

/-- The rule checks of `validateField` (the part before "Update field
styling"): the final values of `isValid` and `errorMessage`. -/
def checkField (field : Field) : Bool × List Char :=
  let value := jsTrim field.value
  let type := field.type
  let s0 : Bool × List Char := (true, [])
  let s1 : Bool × List Char :=
    if field.required && value == [] then (false, "This field is required".toList) else s0
  let s2 : Bool × List Char :=
    if type == "email" && value != [] then
      if !emailRegex.test value then (false, "Please enter a valid email address".toList) else s1
    else s1
  let s3 : Bool × List Char :=
    if type == "tel" && value != [] then
      if !phoneRegex.test value then (false, "Please enter a valid phone number".toList) else s2
    else s2
  match field.minlength with
  | some attr =>
    if jsLength value > 0 then
      let minLength := parseInt attr
      if minLength.above (jsLength value) then
        (false, "Minimum ".toList ++ numberToString minLength ++ " characters required".toList)
      else s3
    else s3
  | none => s3

/-- `field.style.borderColor = color`. -/
def setBorder (pg : Page) (field : Field) (color : String) : Page :=
  { pg with border := Function.update pg.border field.id color }

/-- Entry into `validateField(field)`, recorded in the ghost component. -/
def noteCall (pg : Page) (field : Field) : Page :=
  { pg with validated := pg.validated ++ [field.id] }

/-- `validateField(field)`: the verdict and the page it leaves. -/
def validateField (pg : Page) (field : Field) : Bool × Page :=
  let pg0 := noteCall pg field
  let r := checkField field
  if r.1 then
    (true, removeErrorMessage (setBorder pg0 field "") field)
  else
    (false, showErrorMessage (setBorder pg0 field "#ef4444") field r.2)

/-- A form: its controls in document order and the entry list that
`new FormData(form)` builds from them, name and value.  Entries of file
inputs, whose value is not a string, are outside the model. -/
structure Form where
  controls : List Field
  entries : List (List Char × List Char)

/-- `form.querySelectorAll("input[required], textarea[required]")`. -/
def requiredInputs (form : Form) : List Field :=
  form.controls.filter (fun c => (c.tag == "input" || c.tag == "textarea") && c.required)

/-- `validateForm(form)`: the verdict and the page it leaves. -/
def validateForm (pg : Page) (form : Form) : Bool × Page :=
  (requiredInputs form).foldl
    (fun (acc : Bool × Page) input =>
      let r := validateField acc.2 input
      (if !r.1 then false else acc.1, r.2))
    (true, pg)

/-! ## Notifications and the submit handler -/

/-- `showNotification(message, type)`: the first `.notification` element of
the document is removed and a new one is appended to the body.  The timers
that later take the notification away are not modelled. -/
def showNotification (pg : Page) (message : List Char) (type : String) : Page :=
  { pg with notifications := pg.notifications.tail ++ [(message, type)] }

/-- `object[key] = value` on a plain object, for a string `value`.  The name
`__proto__` reaches the accessor of `Object.prototype`, whose setter ignores a
value that is neither an object nor `null`: no own property is made. -/
def objSet (object : JSObject) (key value : List Char) : JSObject :=
  if key = "__proto__".toList then object
  else if object.any (fun kv => kv.1 == key) then
    object.map (fun kv => if kv.1 == key then (kv.1, value) else kv)
  else object ++ [(key, value)]

/-- The object built by `formData.forEach((value, key) => object[key] = value)`. -/
def formObject (entries : List (List Char × List Char)) : JSObject :=
  entries.foldl (fun object kv => objSet object kv.1 kv.2) []

/-- Content given to the submit button while the request is on its way. -/
def sendingHTML : String := "<i class=\"fas fa-spinner fa-spin\"></i> Sending..."

/-- The request the submit handler hands to `fetch`. -/
def submitRequest (body : JSObject) : Request :=
  { url := "https://api.web3forms.com/submit", method := "POST",
    headers := [("Content-Type", "application/json"), ("Accept", "application/json")],
    body := body }

/-- The listener for `submit` on the contact form, up to the call of `fetch`.
`e.preventDefault()` touches nothing of the state kept here. -/
def submitHandler (pg : Page) (form : Form) : Page :=
  let r := validateForm pg form
  if !r.1 then r.2
  else
    let object := formObject form.entries
    let originalContent := r.2.btnHTML
    let pg1 := { r.2 with btnHTML := sendingHTML, btnDisabled := true }
    { pg1 with requests := pg1.requests ++ [submitRequest object],
               pending := pg1.pending ++ [originalContent] }

/-- A JavaScript value as far as `jsonResponse.message || "..."` and the string
concatenation after it look at it.  `other` is a number, or an array or object
that has a string form, given by its truthiness and the text `ToString` gives
it.  `unprintable` is an array or object that has none: `ToPrimitive` throws a
`TypeError` on it, as on an object parsed from JSON with a member `toString`
of its own, which is no function. -/
inductive JSVal where
  | undefined : JSVal
  | null : JSVal
  | bool (b : Bool) : JSVal
  | str (s : List Char) : JSVal
  | other (truthy : Bool) (text : List Char) : JSVal
  | unprintable : JSVal
  deriving DecidableEq

/-- `ToBoolean`. -/
def JSVal.truthy : JSVal → Bool
  | JSVal.undefined => false
  | JSVal.null => false
  | JSVal.bool b => b
  | JSVal.str s => s != []
  | JSVal.other t _ => t
  | JSVal.unprintable => true

/-- `ToString` by way of `ToPrimitive`, as string concatenation applies it;
`none` when it throws. -/
def JSVal.toStr : JSVal → Option (List Char)
  | JSVal.undefined => some "undefined".toList
  | JSVal.null => some "null".toList
  | JSVal.bool b => some (if b then "true".toList else "false".toList)
  | JSVal.str s => some s
  | JSVal.other _ text => some text
  | JSVal.unprintable => none

/-- The expression `"Error: " + (jsonResponse.message || "Something went
wrong!")` for a given value of `jsonResponse.message`; `none` when the
concatenation throws. -/
def errorText (message : JSVal) : Option (List Char) :=
  if message.truthy then
    match message.toStr with
    | some text => some ("Error: ".toList ++ text)
    | none => none
  else some ("Error: ".toList ++ "Something went wrong!".toList)

/-- What `await response.json()` comes to: the promise rejects when the body
is not JSON; otherwise the value is `null`, or some other value, of which the
handler reads only the property `message`. -/
inductive ResponseJson where
  | rejects : ResponseJson
  | null : ResponseJson
  | value (message : JSVal) : ResponseJson
  deriving DecidableEq

/-- A response `fetch` resolves with. -/
structure Response where
  status : Nat
  json : ResponseJson
  deriving DecidableEq

/-- How the promise returned by `fetch` settles. -/
inductive Outcome where
  | response (r : Response) : Outcome
  | networkError : Outcome
  deriving DecidableEq

/-- The `then` callback; `none` when it throws or its `await` rejects. -/
def thenCallback (pg : Page) (response : Response) : Option Page :=
  match response.json with
  | ResponseJson.rejects => none
  | jsonResponse =>
    if response.status = 200 then
      some { pg with location := some "thankyou.html" }
    else
      match jsonResponse with
      | ResponseJson.value message =>
        match errorText message with
        | some text => some (showNotification pg text "error")
        | none => none
      | _ => none

/-- The `catch` callback. -/
def catchCallback (pg : Page) : Page :=
  showNotification pg
    "Something went wrong! Please try again or contact me directly via email.".toList "error"

/-- The `finally` callback of the request whose callbacks captured
`originalContent`. -/
def finallyCallback (pg : Page) (originalContent : String) : Page :=
  { pg with btnHTML := originalContent, btnDisabled := false }

/-- The chain `.then(...).catch(...).finally(...)` run on the outcome of the
pending request number `i` (requests may settle in any order). -/
def settle (pg : Page) (i : Nat) (outcome : Outcome) : Page :=
  match pg.pending.get? i with
  | none => pg
  | some originalContent =>
    let pg0 := { pg with pending := pg.pending.eraseIdx i }
    let pg1 :=
      match outcome with
      | Outcome.networkError => catchCallback pg0
      | Outcome.response r =>
        match thenCallback pg0 r with
        | some p => p
        | none => catchCallback pg0
    finallyCallback pg1 originalContent

/-- The parts of the page outside the element tree, the border colours and the
ghost record. -/
def Page.rest (pg : Page) :
    String × Bool × List Request × List String × List (List Char × String) × Option String :=
  (pg.btnHTML, pg.btnDisabled, pg.requests, pg.pending, pg.notifications, pg.location)

/-- A page on which nothing has happened yet, with the given element tree and
submit-button content. -/
def freshPage (tree : Dom) (btnHTML : String) : Page :=
  { tree := tree, border := fun _ => "", validated := [], btnHTML := btnHTML,
    btnDisabled := false, requests := [], pending := [], notifications := [],
    location := none }

/-! ## The four rules of `validateField`, one by one -/

/-- The rules in the order `validateField` runs them. -/
inductive Rule where
  | required : Rule
  | email : Rule
  | telephone : Rule
  | minLength : Rule
  deriving DecidableEq, Repr

/-- The rules in source order. -/
def ruleOrder : List Rule := [Rule.required, Rule.email, Rule.telephone, Rule.minLength]

/-- The condition under which the rule's block sets `isValid = false`. -/
def ruleFails (field : Field) : Rule → Bool
  | Rule.required => field.required && jsTrim field.value == []
  | Rule.email =>
    field.type == "email" && jsTrim field.value != [] && !emailRegex.test (jsTrim field.value)
  | Rule.telephone =>
    field.type == "tel" && jsTrim field.value != [] && !phoneRegex.test (jsTrim field.value)
  | Rule.minLength =>
    match field.minlength with
    | some attr =>
      jsLength (jsTrim field.value) > 0 && (parseInt attr).above (jsLength (jsTrim field.value))
    | none => false

/-- The text the rule's block assigns to `errorMessage`. -/
def ruleReason (field : Field) : Rule → List Char
  | Rule.required => "This field is required".toList
  | Rule.email => "Please enter a valid email address".toList
  | Rule.telephone => "Please enter a valid phone number".toList
  | Rule.minLength =>
    match field.minlength with
    | some attr =>
      "Minimum ".toList ++ numberToString (parseInt attr) ++ " characters required".toList
    | none => []

/-- The failing rules of a field, in source order. -/
def failingRules (field : Field) : List Rule :=
  ruleOrder.filter (ruleFails field)

/-- The pattern as the specification words it: "one-or-more non-space/non-@
characters, @, one-or-more non-space/non-@ characters, ., one-or-more
non-space characters". -/
def specEmailPattern : Regex :=
  let c := Regex.cls (fun d => !isJSWhiteSpace d && d != '@')
  let e := Regex.cls (fun d => !isJSWhiteSpace d)
  Regex.seq (Regex.plus c) (Regex.seq (Regex.chr '@')
    (Regex.seq (Regex.plus c) (Regex.seq (Regex.chr '.') (Regex.plus e))))

/-! ## Response bodies -/

/-- What the body of a response holds: text that is not JSON, the JSON value
`null`, a JSON object given by the properties of the parsed object (each name
once, with its value), or another JSON value (a number, a string, a boolean or
an array). -/
inductive JsonBody where
  | notJson : JsonBody
  | null : JsonBody
  | object (members : List (List Char × JSVal)) : JsonBody
  | other : JsonBody
  deriving DecidableEq

/-- What `await response.json()` and the later read of `.message` make of a
body: the handler reads no other member. -/
def JsonBody.read : JsonBody → ResponseJson
  | JsonBody.notJson => ResponseJson.rejects
  | JsonBody.null => ResponseJson.null
  | JsonBody.object members =>
    ResponseJson.value ((members.lookup "message".toList).getD JSVal.undefined)
  | JsonBody.other => ResponseJson.value JSVal.undefined

/-! ## The events of the page -/

/-- What can happen on the page once it is loaded: a `submit` event on the
contact form, whose controls and entries are then as given; the promise of the
pending request number `i` settling; a `blur` or `input` event that runs
`validateField` on a field. -/
inductive Event where
  | submit (form : Form) : Event
  | settled (i : Nat) (outcome : Outcome) : Event
  | validate (field : Field) : Event

/-- One event.  The markup of the form is not among the sources, so whether
the browser hands a `submit` event to the listener in a given state is the
parameter `deliver`. -/
def step (deliver : Page → Bool) (pg : Page) : Event → Page
  | Event.submit form => if deliver pg then submitHandler pg form else pg
  | Event.settled i outcome => settle pg i outcome
  | Event.validate field => (validateField pg field).2

/-- A run of events from a given page. -/
def run (deliver : Page → Bool) (pg : Page) (events : List Event) : Page :=
  events.foldl (step deliver) pg

/-- The submit control is the only way to submit the form: the browser hands
over a `submit` event exactly when the control is enabled. -/
def viaSubmitControl (pg : Page) : Bool := !pg.btnDisabled

/-- Every `submit` event is handed over, whatever the state of the submit
control, as when the form is submitted by `requestSubmit()` or by a second
submit control. -/
def deliverAlways (_pg : Page) : Bool := true

/-- The button and the pending requests agree, for a button whose content at
load is `label`: either nothing is pending and the button is enabled with that
content, or exactly one request is pending, it captured that content, and the
button is disabled and shows the busy content. -/
def oneAtATime (label : String) (pg : Page) : Prop :=
  (pg.pending = [] ∧ pg.btnDisabled = false ∧ pg.btnHTML = label) ∨
  (pg.pending = [label] ∧ pg.btnDisabled = true ∧ pg.btnHTML = sendingHTML)

/-- A submit, a second submit while the first request is pending, then the
failure of the request. -/
def doubleSubmitRun : List Event :=
  [Event.submit { controls := [], entries := [("topic".toList, "a".toList)] },
   Event.submit { controls := [], entries := [("topic".toList, "b".toList)] },
   Event.settled 0 Outcome.networkError]

/-! ## The theme toggle -/

/-- The part of the page `initThemeToggle` works on.  `hasToggle`: the element
`#themeToggle` exists and has an `i` element inside; `lightMode`: the body has
the class `light-mode`; `iconClasses`: the class list of the icon; `stored`:
the value of `localStorage` under the key `theme`; `transition`: the inline
`transition` style of the body; `listening`: the click listener is
installed. -/
structure ThemePage where
  hasToggle : Bool
  lightMode : Bool
  iconClasses : List String
  stored : Option String
  transition : String
  listening : Bool

/-- Keeps the first occurrence of every token. -/
def dedupTokens : List String → List String
  | [] => []
  | t :: ts => t :: (dedupTokens ts).filter (fun u => u != t)

/-- `classList.replace(oldToken, newToken)`: nothing happens when `oldToken`
is absent; otherwise it becomes `newToken`, and a token set stays a set. -/
def replaceToken (oldToken newToken : String) (classes : List String) : List String :=
  if classes.contains oldToken then
    dedupTokens (classes.map (fun t => if t == oldToken then newToken else t))
  else classes

/-- `initThemeToggle()`. -/
def initThemeToggle (st : ThemePage) : ThemePage :=
  if !st.hasToggle then st
  else
    let savedTheme : String :=
      match st.stored with
      | some v => if v = "" then "dark" else v
      | none => "dark"
    let st1 :=
      if savedTheme = "light" then
        { st with lightMode := true,
                  iconClasses := replaceToken "fa-moon" "fa-sun" st.iconClasses }
      else st
    { st1 with listening := true }

/-- The click listener `initThemeToggle` installs on `#themeToggle`; a click
does nothing when no listener is installed. -/
def themeClick (st : ThemePage) : ThemePage :=
  if !st.listening then st
  else
    let isLight := !st.lightMode
    { st with
      lightMode := isLight,
      iconClasses :=
        replaceToken (if isLight then "fa-moon" else "fa-sun")
          (if isLight then "fa-sun" else "fa-moon") st.iconClasses,
      stored := some (if isLight then "light" else "dark"),
      transition := "all 0.3s ease" }

/-! ## Sample pages and fields -/

/-- A wrapper element `0` whose only child is the element `1`. -/
def oneFieldTree : Dom := Dom.elem 0 (Dom.elem 1 Dom.nil Dom.nil) Dom.nil

/-- A required e-mail input with `minlength="8"` holding `abc`. -/
def shortEmailField : Field :=
  { id := 1, tag := "input", type := "email", value := "abc".toList, required := true,
    minlength := some "8".toList, parent := 0 }

/-- An optional e-mail input holding `a@b.c@d`. -/
def twoAtEmailField : Field :=
  { id := 1, tag := "input", type := "email", value := "a@b.c@d".toList, required := false,
    minlength := none, parent := 0 }

/-- An optional text input with `minlength="8"` left empty. -/
def emptyOptionalField : Field :=
  { id := 1, tag := "input", type := "text", value := [], required := false,
    minlength := some "8".toList, parent := 0 }

/-- An optional telephone input holding `+1 (555) 123-4567`. -/
def phoneField : Field :=
  { id := 1, tag := "input", type := "tel", value := "+1 (555) 123-4567".toList,
    required := false, minlength := none, parent := 0 }

/-- A required text input with `minlength="8"` holding `hello`. -/
def shortTextField : Field :=
  { id := 1, tag := "input", type := "text", value := "hello".toList, required := true,
    minlength := some "8".toList, parent := 0 }

/-- Two optional text inputs that share the name `topic`. -/
def twoTopicsForm : Form :=
  { controls := [], entries := [("topic".toList, "a".toList), ("topic".toList, "b".toList)] }

/-- A response with status 200 whose body is not JSON. -/
def okNotJson : Response := { status := 200, json := ResponseJson.rejects }

/-- The page after the submit handler has sent `twoTopicsForm`. -/
def sentPage : Page := submitHandler (freshPage oneFieldTree "Send Message") twoTopicsForm

/-- A wrapper element `0` holding the two field elements `1` and `2`. -/
def sharedParentTree : Dom :=
  Dom.elem 0 (Dom.elem 1 Dom.nil (Dom.elem 2 Dom.nil Dom.nil)) Dom.nil

/-- A required text input left empty, child of the element `0`. -/
def emptyNameField : Field :=
  { id := 1, tag := "input", type := "text", value := [], required := true,
    minlength := none, parent := 0 }

/-- A required textarea holding `hello`, child of the same element `0`. -/
def filledMessageField : Field :=
  { id := 2, tag := "textarea", type := "textarea", value := "hello".toList, required := true,
    minlength := none, parent := 0 }

/-- A form whose two required fields share their parent element. -/
def sharedParentForm : Form :=
  { controls := [emptyNameField, filledMessageField],
    entries := [("name".toList, []), ("message".toList, "hello".toList)] }

/-- Two wrapper elements `10` and `20`, one around each field element. -/
def twoGroupsTree : Dom :=
  Dom.elem 10 (Dom.elem 1 Dom.nil Dom.nil) (Dom.elem 20 (Dom.elem 2 Dom.nil Dom.nil) Dom.nil)

/-- The same two fields, each in a wrapper of its own. -/
def twoGroupsForm : Form :=
  { controls := [{ emptyNameField with parent := 10 }, { filledMessageField with parent := 20 }],
    entries := [("name".toList, []), ("message".toList, "hello".toList)] }

/-- Members of a body that signals failure: `success` is `false`, and there is
a message. -/
def failureMembers : List (List Char × JSVal) :=
  [("success".toList, JSVal.bool false),
    ("message".toList, JSVal.str "Invalid access key".toList)]

/-- A response with status 200 whose JSON body signals failure. -/
def okFailureResponse : Response :=
  { status := 200, json := (JsonBody.object failureMembers).read }

/-- A response with status 422 whose body has the single member `message`,
holding `bad email`. -/
def badEmailResponse : Response :=
  { status := 422,
    json := (JsonBody.object [("message".toList, JSVal.str "bad email".toList)]).read }

/-- A page as loaded: dark, a moon on the toggle, nothing stored. -/
def darkThemePage : ThemePage :=
  { hasToggle := true, lightMode := false, iconClasses := ["fas", "fa-moon"],
    stored := none, transition := "", listening := false }

/-- A response with status 422 whose body has the single member `message`,
holding an object with a member `toString` of its own: a message that is not
empty and has no string form. -/
def unprintableMessageResponse : Response :=
  { status := 422,
    json := (JsonBody.object [("message".toList, JSVal.unprintable)]).read }

/-! ## Correctness of the matcher -/

namespace Regex

theorem nullable_iff (r : Regex) : nullable r = true ↔ Lang r [] := by
  induction r with
  | empty => simp [nullable, Lang]
  | eps => simp [nullable, Lang]
  | cls p => simp [nullable, Lang]
  | seq a b iha ihb =>
    simp only [nullable, Lang, Bool.and_eq_true, iha, ihb]
    constructor
    · rintro ⟨h1, h2⟩
      exact ⟨[], [], rfl, h1, h2⟩
    · rintro ⟨u, v, huv, h1, h2⟩
      have hu : u = [] := (List.append_eq_nil.mp huv.symm).1
      have hv : v = [] := (List.append_eq_nil.mp huv.symm).2
      subst hu; subst hv
      exact ⟨h1, h2⟩
  | alt a b iha ihb => simp [nullable, Lang, iha, ihb]
  | star a _ =>
    simp only [nullable, Lang, true_iff]
    exact ⟨[], rfl, by simp⟩

theorem star_cons (a : Regex) (c : Char) (s : List Char) :
    Lang (star a) (c :: s) ↔
      ∃ u v, s = u ++ v ∧ Lang a (c :: u) ∧ Lang (star a) v := by
  constructor
  · rintro ⟨parts, hflat, hall⟩
    induction parts with
    | nil => simp at hflat
    | cons p ps ih =>
      cases p with
      | nil =>
        apply ih
        · simpa using hflat
        · intro u hu
          exact hall u (List.mem_cons_of_mem _ hu)
      | cons d u =>
        simp only [List.flatten_cons, List.cons_append, List.cons.injEq] at hflat
        obtain ⟨hd, hs⟩ := hflat
        subst hd
        refine ⟨u, ps.flatten, hs, hall _ (List.mem_cons_self _ _), ps, rfl, ?_⟩
        intro w hw
        exact hall w (List.mem_cons_of_mem _ hw)
  · rintro ⟨u, v, hs, hu, parts, hv, hall⟩
    refine ⟨(c :: u) :: parts, ?_, ?_⟩
    · simp [hs, hv]
    · intro w hw
      rcases List.mem_cons.mp hw with h | h
      · subst h; exact hu
      · exact hall w h

theorem deriv_iff (r : Regex) (c : Char) (s : List Char) :
    Lang (deriv c r) s ↔ Lang r (c :: s) := by
  induction r generalizing s with
  | empty => simp [deriv, Lang]
  | eps => simp [deriv, Lang]
  | cls p =>
    by_cases hp : p c = true
    · simp only [deriv, hp, Lang, if_true, List.cons.injEq]
      constructor
      · intro hs
        exact ⟨c, ⟨rfl, hs⟩, hp⟩
      · rintro ⟨d, ⟨_, hs⟩, _⟩
        exact hs
    · simp only [deriv, hp, Lang, Bool.false_eq_true, if_false, false_iff]
      rintro ⟨d, hd, hpd⟩
      simp only [List.cons.injEq] at hd
      rw [← hd.1] at hpd
      exact hp hpd
  | seq a b iha ihb =>
    have key : Lang (seq a b) (c :: s) ↔
        (Lang a [] ∧ Lang b (c :: s)) ∨ ∃ u v, s = u ++ v ∧ Lang a (c :: u) ∧ Lang b v := by
      constructor
      · rintro ⟨u, v, huv, hu, hv⟩
        cases u with
        | nil =>
          left
          simp only [List.nil_append] at huv
          subst huv
          exact ⟨hu, hv⟩
        | cons d u =>
          right
          simp only [List.cons_append, List.cons.injEq] at huv
          obtain ⟨hd, hs⟩ := huv
          subst hd
          exact ⟨u, v, hs, hu, hv⟩
      · rintro (⟨h1, h2⟩ | ⟨u, v, hs, hu, hv⟩)
        · exact ⟨[], c :: s, rfl, h1, h2⟩
        · exact ⟨c :: u, v, by simp [hs], hu, hv⟩
    rw [key]
    by_cases hn : nullable a = true
    · have hn2 : Lang a [] := (nullable_iff a).mp hn
      simp only [deriv, hn, if_true, Lang, iha, ihb, hn2, true_and]
      exact or_comm
    · have hn2 : ¬ Lang a [] := fun h => hn ((nullable_iff a).mpr h)
      simp only [deriv, hn, Lang, iha, hn2, false_and, false_or, Bool.false_eq_true, if_false]
  | alt a b iha ihb => simp [deriv, Lang, iha, ihb]
  | star a iha =>
    rw [star_cons]
    simp only [deriv]
    constructor
    · rintro ⟨u, v, hs, hu, hv⟩
      exact ⟨u, v, hs, (iha u).mp hu, hv⟩
    · rintro ⟨u, v, hs, hu, hv⟩
      exact ⟨u, v, hs, (iha u).mpr hu, hv⟩

/-- The matcher decides membership in the language of the pattern. -/
theorem test_iff (r : Regex) (s : List Char) : test r s = true ↔ Lang r s := by
  induction s generalizing r with
  | nil => simpa [test] using nullable_iff r
  | cons c cs ih => simpa [test, ih] using deriv_iff r c cs

theorem lang_star_cls (p : Char → Bool) (s : List Char) :
    Lang (star (cls p)) s ↔ ∀ c ∈ s, p c = true := by
  induction s with
  | nil =>
    simp only [List.not_mem_nil, false_imp_iff, implies_true, iff_true]
    exact ⟨[], rfl, by simp⟩
  | cons d s ih =>
    rw [star_cons]
    constructor
    · rintro ⟨u, v, hs, ⟨e, he, hpe⟩, hv⟩
      simp only [List.cons.injEq] at he
      obtain ⟨hde, hu⟩ := he
      subst hde; subst hu
      simp only [List.nil_append] at hs
      subst hs
      intro c hc
      rcases List.mem_cons.mp hc with h | h
      · subst h; exact hpe
      · exact ih.mp hv c h
    · intro h
      refine ⟨[], s, rfl, ⟨d, rfl, h d (List.mem_cons_self _ _)⟩, ih.mpr ?_⟩
      intro c hc
      exact h c (List.mem_cons_of_mem _ hc)

theorem lang_plus_cls (p : Char → Bool) (s : List Char) :
    Lang (plus (cls p)) s ↔ s ≠ [] ∧ ∀ c ∈ s, p c = true := by
  cases s with
  | nil =>
    simp only [ne_eq, not_true_eq_false, false_and, iff_false]
    rintro ⟨u, v, huv, ⟨e, he, _⟩, _⟩
    subst he
    simp at huv
  | cons d s =>
    simp only [ne_eq, reduceCtorEq, not_false_eq_true, true_and]
    rw [← lang_star_cls, star_cons]
    constructor
    · rintro ⟨u, v, huv, ⟨e, he, hpe⟩, hv⟩
      subst he
      simp only [List.singleton_append, List.cons.injEq] at huv
      obtain ⟨hde, hs⟩ := huv
      subst hde
      exact ⟨[], v, by simpa using hs, ⟨d, rfl, hpe⟩, hv⟩
    · rintro ⟨u, v, hs, ⟨e, he, hpe⟩, hv⟩
      simp only [List.cons.injEq] at he
      obtain ⟨hde, hu⟩ := he
      subst hde; subst hu
      exact ⟨[d], v, by simpa using hs, ⟨d, rfl, hpe⟩, hv⟩

theorem lang_chr_seq (c : Char) (r : Regex) (s : List Char) :
    Lang (seq (chr c) r) s ↔ ∃ v, s = c :: v ∧ Lang r v := by
  constructor
  · rintro ⟨u, v, huv, ⟨e, he, hpe⟩, hv⟩
    have hec : e = c := by simpa using hpe
    subst he; subst hec
    exact ⟨v, by simpa using huv, hv⟩
  · rintro ⟨v, hs, hv⟩
    exact ⟨[c], v, by simpa using hs, ⟨c, rfl, by simp⟩, hv⟩

end Regex

/-! ## The verdict of `validateField` in terms of the rules -/

/-- The checks of `validateField` leave the verdict and text of the last rule
that fails, in source order. -/
theorem checkField_eq (f : Field) :
    checkField f =
      if ruleFails f Rule.minLength then (false, ruleReason f Rule.minLength)
      else if ruleFails f Rule.telephone then (false, ruleReason f Rule.telephone)
      else if ruleFails f Rule.email then (false, ruleReason f Rule.email)
      else if ruleFails f Rule.required then (false, ruleReason f Rule.required)
      else (true, []) := by
  simp only [checkField, ruleFails, ruleReason]
  generalize "This field is required".toList = m1
  generalize "Please enter a valid email address".toList = m2
  generalize "Please enter a valid phone number".toList = m3
  generalize jsTrim f.value = v
  generalize (f.required && v == []) = R
  generalize (f.type == "email" && v != []) = A
  generalize emailRegex.test v = B
  generalize (f.type == "tel" && v != []) = C
  generalize phoneRegex.test v = D
  cases hm : f.minlength with
  | none =>
    cases R <;> cases A <;> cases B <;> cases C <;> cases D <;> simp
  | some attr =>
    simp only []
    generalize "Minimum ".toList ++ numberToString (parseInt attr) ++
      " characters required".toList = m4
    generalize (parseInt attr).above (jsLength v) = M
    by_cases hl : jsLength v > 0 <;>
      cases M <;> cases R <;> cases A <;> cases B <;> cases C <;> cases D <;> simp [hl]

theorem validateField_eq (pg : Page) (f : Field) :
    validateField pg f =
      if (checkField f).1 then
        (true, removeErrorMessage (setBorder (noteCall pg f) f "") f)
      else
        (false, showErrorMessage (setBorder (noteCall pg f) f "#ef4444") f (checkField f).2) :=
  rfl

theorem validateField_fst (pg : Page) (f : Field) :
    (validateField pg f).1 = (checkField f).1 := by
  rw [validateField_eq]
  cases (checkField f).1 <;> rfl

/-- The verdict is `true` exactly when none of the four rules fails. -/
theorem checkField_fst_iff (f : Field) :
    (checkField f).1 = true ↔
      ruleFails f Rule.required = false ∧ ruleFails f Rule.email = false ∧
      ruleFails f Rule.telephone = false ∧ ruleFails f Rule.minLength = false := by
  rw [checkField_eq]
  cases ruleFails f Rule.required <;> cases ruleFails f Rule.email <;>
    cases ruleFails f Rule.telephone <;> cases ruleFails f Rule.minLength <;> simp

theorem jsTrim_eq_nil (s : List Char) (h : ∀ c ∈ s, isJSWhiteSpace c = true) :
    jsTrim s = [] := by
  have h1 : s.dropWhile isJSWhiteSpace = [] := List.dropWhile_eq_nil_iff.mpr h
  simp [jsTrim, h1]

theorem mem_of_mem_jsTrim (s : List Char) (c : Char) (h : c ∈ jsTrim s) : c ∈ s := by
  unfold jsTrim at h
  rw [List.mem_reverse] at h
  have h1 := (List.dropWhile_suffix isJSWhiteSpace).subset h
  rw [List.mem_reverse] at h1
  exact (List.dropWhile_suffix isJSWhiteSpace).subset h1

theorem mem_jsTrim_or_ws (s : List Char) (c : Char) (h : c ∈ s) :
    c ∈ jsTrim s ∨ isJSWhiteSpace c = true := by
  rw [← List.takeWhile_append_dropWhile isJSWhiteSpace s, List.mem_append] at h
  rcases h with h | h
  · exact Or.inr (List.mem_takeWhile_imp h)
  · rw [← List.mem_reverse,
      ← List.takeWhile_append_dropWhile isJSWhiteSpace (s.dropWhile isJSWhiteSpace).reverse,
      List.mem_append] at h
    rcases h with h | h
    · exact Or.inr (List.mem_takeWhile_imp h)
    · left
      unfold jsTrim
      rw [List.mem_reverse]
      exact h

theorem lang_emailRegex (v : List Char) :
    Regex.Lang emailRegex v ↔
      ∃ a b c, v = a ++ '@' :: (b ++ '.' :: c) ∧ a ≠ [] ∧ b ≠ [] ∧ c ≠ [] ∧
        ∀ ch ∈ a ++ b ++ c, isJSWhiteSpace ch = false ∧ ch ≠ '@' := by
  have hcls : ∀ (l : List Char),
      (∀ ch ∈ l, (!isJSWhiteSpace ch && ch != '@') = true) ↔
        ∀ ch ∈ l, isJSWhiteSpace ch = false ∧ ch ≠ '@' := by
    intro l
    constructor
    · intro h ch hch
      simpa using h ch hch
    · intro h ch hch
      simpa using h ch hch
  simp only [emailRegex]
  constructor
  · rintro ⟨a, w, hv, ha, hw⟩
    obtain ⟨w1, hw1, b, w2, hw2, hb, hw3⟩ := (Regex.lang_chr_seq _ _ _).mp hw
    obtain ⟨c, hc, hc2⟩ := (Regex.lang_chr_seq _ _ _).mp hw3
    obtain ⟨ha1, ha2⟩ := (Regex.lang_plus_cls _ _).mp ha
    obtain ⟨hb1, hb2⟩ := (Regex.lang_plus_cls _ _).mp hb
    obtain ⟨hc1, hc3⟩ := (Regex.lang_plus_cls _ _).mp hc2
    refine ⟨a, b, c, ?_, ha1, hb1, hc1, ?_⟩
    · rw [hv, hw1, hw2, hc]
    · intro ch hch
      simp only [List.mem_append] at hch
      rcases hch with (h | h) | h
      · exact (hcls a).mp ha2 ch h
      · exact (hcls b).mp hb2 ch h
      · exact (hcls c).mp hc3 ch h
  · rintro ⟨a, b, c, hv, ha, hb, hc, hall⟩
    refine ⟨a, '@' :: (b ++ '.' :: c), hv, ?_, ?_⟩
    · refine (Regex.lang_plus_cls _ _).mpr ⟨ha, (hcls a).mpr ?_⟩
      intro ch hch
      exact hall ch (by simp [hch])
    · refine (Regex.lang_chr_seq _ _ _).mpr ⟨_, rfl, b, '.' :: c, rfl, ?_, ?_⟩
      · refine (Regex.lang_plus_cls _ _).mpr ⟨hb, (hcls b).mpr ?_⟩
        intro ch hch
        exact hall ch (by simp [hch])
      · refine (Regex.lang_chr_seq _ _ _).mpr ⟨c, rfl, ?_⟩
        refine (Regex.lang_plus_cls _ _).mpr ⟨hc, (hcls c).mpr ?_⟩
        intro ch hch
        exact hall ch (by simp [hch])

theorem lang_phoneRegex (v : List Char) :
    Regex.Lang phoneRegex v ↔ v ≠ [] ∧ ∀ ch ∈ v, isPhoneChar ch = true :=
  Regex.lang_plus_cls isPhoneChar v

theorem isPhoneChar_iff (ch : Char) :
    isPhoneChar ch = true ↔
      (('0' ≤ ch ∧ ch ≤ '9') ∨ isJSWhiteSpace ch = true ∨
        ch = '+' ∨ ch = '(' ∨ ch = ')' ∨ ch = '-') := by
  have h0 : ('0' ≤ ch ∧ ch ≤ '9') ↔ (48 ≤ ch.toNat ∧ ch.toNat ≤ 57) := by
    show (('0' : Char).val ≤ ch.val ∧ ch.val ≤ ('9' : Char).val) ↔ _
    simp only [UInt32.le_def, Char.toNat]
    exact Iff.rfl
  rw [h0]
  simp only [isPhoneChar, Bool.or_eq_true, Bool.and_eq_true, decide_eq_true_eq, beq_iff_eq,
    or_assoc]

/-! ## What `validateField` and `validateForm` leave untouched -/

theorem validateField_rest (pg : Page) (f : Field) :
    (validateField pg f).2.rest = pg.rest := by
  rw [validateField_eq]
  cases (checkField f).1 <;> rfl

theorem validateField_validated (pg : Page) (f : Field) :
    (validateField pg f).2.validated = pg.validated ++ [f.id] := by
  rw [validateField_eq]
  cases (checkField f).1 <;> rfl

/-- The loop of `validateForm`, from any intermediate state. -/
theorem validateForm_loop (l : List Field) (b : Bool) (pg : Page) :
    l.foldl
      (fun (acc : Bool × Page) input =>
        let r := validateField acc.2 input
        (if !r.1 then false else acc.1, r.2))
      (b, pg) =
    (b && l.all (fun f => (checkField f).1),
      l.foldl (fun p f => (validateField p f).2) pg) := by
  induction l generalizing b pg with
  | nil => simp
  | cons f l ih =>
    simp only [List.foldl_cons, List.all_cons]
    rw [ih, validateField_fst]
    cases b <;> cases (checkField f).1 <;> simp

theorem validateForm_eq (pg : Page) (form : Form) :
    validateForm pg form =
      ((requiredInputs form).all (fun f => (checkField f).1),
        (requiredInputs form).foldl (fun p f => (validateField p f).2) pg) := by
  unfold validateForm
  rw [validateForm_loop]
  simp

theorem foldl_validateField_rest (l : List Field) (pg : Page) :
    (l.foldl (fun p f => (validateField p f).2) pg).rest = pg.rest := by
  induction l generalizing pg with
  | nil => rfl
  | cons f l ih => simp only [List.foldl_cons]; rw [ih, validateField_rest]

theorem foldl_validateField_validated (l : List Field) (pg : Page) :
    (l.foldl (fun p f => (validateField p f).2) pg).validated =
      pg.validated ++ l.map (fun f => f.id) := by
  induction l generalizing pg with
  | nil => simp
  | cons f l ih =>
    simp only [List.foldl_cons, List.map_cons]
    rw [ih, validateField_validated]
    simp

theorem validateForm_rest (pg : Page) (form : Form) :
    (validateForm pg form).2.rest = pg.rest := by
  rw [validateForm_eq]
  exact foldl_validateField_rest _ pg

/-! ## Reading the object the submit handler builds -/

theorem lookup_objSet_same (o : JSObject) (k v : List Char) (hk : k ≠ "__proto__".toList) :
    (objSet o k v).lookup k = some v := by
  unfold objSet
  rw [if_neg hk]
  induction o with
  | nil => simp [List.lookup]
  | cons e o ih =>
    obtain ⟨ek, ev⟩ := e
    by_cases hek : ek = k
    · subst hek
      simp [List.lookup]
    · have hek2 : (ek == k) = false := by simpa using hek
      have hek3 : (k == ek) = false := by simpa using fun h => hek h.symm
      simp only [List.any_cons, hek2, Bool.false_or, List.map_cons, Bool.false_eq_true,
        if_false, List.cons_append] at ih ⊢
      split_ifs at ih ⊢ with h
      · simp only [List.lookup, hek3]
        exact ih
      · simp only [List.lookup, hek3]
        exact ih

theorem lookup_objSet_other (o : JSObject) (k v q : List Char) (hq : q ≠ k) :
    (objSet o k v).lookup q = o.lookup q := by
  unfold objSet
  split_ifs with h1 h2
  · rfl
  · clear h2
    induction o with
    | nil => rfl
    | cons e o ih =>
      obtain ⟨ek, ev⟩ := e
      by_cases hek : ek = k
      · subst hek
        have hq2 : (q == ek) = false := by simpa using hq
        simp only [List.map_cons, beq_self_eq_true, if_true]
        rw [List.lookup_cons, List.lookup_cons, hq2]
        exact ih
      · have hek2 : (ek == k) = false := by simpa using hek
        simp only [List.map_cons, hek2, Bool.false_eq_true, if_false]
        rw [List.lookup_cons, List.lookup_cons, ih]
  · clear h2
    induction o with
    | nil =>
      have hq2 : (q == k) = false := by simpa using hq
      simp [List.lookup, hq2]
    | cons e o ih =>
      obtain ⟨ek, ev⟩ := e
      simp only [List.cons_append]
      rw [List.lookup_cons, List.lookup_cons, ih]

theorem lookup_foldl_objSet_other (es : List (List Char × List Char)) (o : JSObject)
    (q : List Char) (hq : ∀ e ∈ es, e.1 ≠ q) :
    (es.foldl (fun object kv => objSet object kv.1 kv.2) o).lookup q = o.lookup q := by
  induction es generalizing o with
  | nil => rfl
  | cons e es ih =>
    simp only [List.foldl_cons]
    rw [ih _ (fun e2 he2 => hq e2 (List.mem_cons_of_mem _ he2))]
    exact lookup_objSet_other o e.1 e.2 q (fun h => hq e (List.mem_cons_self _ _) h.symm)

/-- The object maps a name to the value of the last entry that carries it. -/
theorem lookup_formObject (pre post : List (List Char × List Char)) (k v : List Char)
    (hk : k ≠ "__proto__".toList) (hpost : ∀ e ∈ post, e.1 ≠ k) :
    (formObject (pre ++ (k, v) :: post)).lookup k = some v := by
  unfold formObject
  rw [List.foldl_append, List.foldl_cons, lookup_foldl_objSet_other post _ k hpost]
  exact lookup_objSet_same _ k v hk

/-! ## The element tree under `removeErrorMessage` and `showErrorMessage` -/

namespace Dom

theorem errs_eq_nil_of_hasErr (d : Dom) (h : hasErr d = false) : errs d = [] := by
  induction d with
  | nil => rfl
  | elem id k n ihk ihn =>
    simp only [hasErr, Bool.or_eq_false_iff] at h
    simp [errs, ihk h.1, ihn h.2]
  | err t n _ => simp [hasErr] at h

theorem errs_ne_nil_of_hasErr (d : Dom) (h : hasErr d = true) : errs d ≠ [] := by
  induction d with
  | nil => simp [hasErr] at h
  | elem id k n ihk ihn =>
    simp only [hasErr, Bool.or_eq_true] at h
    rcases h with h | h
    · simp [errs, ihk h]
    · simp [errs, ihn h]
  | err t n _ => simp [errs]

theorem errs_dropFirstErr (d : Dom) : errs (dropFirstErr d) = (errs d).tail := by
  induction d with
  | nil => rfl
  | elem id k n ihk ihn =>
    by_cases h : hasErr k = true
    · simp only [dropFirstErr, h, if_true, errs, ihk]
      exact (List.tail_append_of_ne_nil (errs_ne_nil_of_hasErr k h)).symm
    · have h2 : hasErr k = false := by simpa using h
      simp only [dropFirstErr, h2, Bool.false_eq_true, if_false, errs, ihn,
        errs_eq_nil_of_hasErr k h2, List.nil_append]
  | err t n _ => rfl

theorem errs_pushErr (t : List Char) (d : Dom) : errs (pushErr t d) = errs d ++ [t] := by
  induction d with
  | nil => rfl
  | elem id k n _ ihn => simp [pushErr, errs, ihn]
  | err u n ihn => simp [pushErr, errs, ihn]

theorem skel_dropFirstErr (d : Dom) : skel (dropFirstErr d) = skel d := by
  induction d with
  | nil => rfl
  | elem id k n ihk ihn =>
    by_cases h : hasErr k = true
    · simp [dropFirstErr, h, skel, ihk]
    · simp [dropFirstErr, h, skel, ihn]
  | err t n _ => rfl

theorem skel_pushErr (t : List Char) (d : Dom) : skel (pushErr t d) = skel d := by
  induction d with
  | nil => rfl
  | elem id k n _ ihn => simp [pushErr, skel, ihn]
  | err u n ihn => simp [pushErr, skel, ihn]

theorem hasElem_skel (q : Nat) (d : Dom) : hasElem q (skel d) = hasElem q d := by
  induction d with
  | nil => rfl
  | elem id k n ihk ihn => simp [skel, hasElem, ihk, ihn]
  | err t n ihn => simp [skel, hasElem, ihn]

theorem kidsOf_skel (q : Nat) (d : Dom) : kidsOf q (skel d) = (kidsOf q d).map skel := by
  induction d with
  | nil => rfl
  | elem id k n ihk ihn =>
    by_cases h : id = q
    · simp [skel, kidsOf, h]
    · simp only [skel, kidsOf, h, if_false, ihk, ihn]
      cases kidsOf q k <;> simp
  | err t n ihn => simp [skel, kidsOf, ihn]

theorem kidsOf_eq_none (q : Nat) (d : Dom) (h : hasElem q d = false) : kidsOf q d = none := by
  induction d with
  | nil => rfl
  | elem id k n ihk ihn =>
    simp only [hasElem, Bool.or_eq_false_iff, beq_eq_false_iff_ne, ne_eq] at h
    simp [kidsOf, h.1.1, ihk h.1.2, ihn h.2]
  | err t n ihn =>
    simp only [hasElem] at h
    simp [kidsOf, ihn h]

theorem kidsOf_isSome (q : Nat) (d : Dom) (h : hasElem q d = true) :
    ∃ k, kidsOf q d = some k := by
  induction d with
  | nil => simp [hasElem] at h
  | elem id k n ihk ihn =>
    by_cases h1 : id = q
    · exact ⟨k, by simp [kidsOf, h1]⟩
    · by_cases h2 : hasElem q k = true
      · obtain ⟨k2, hk2⟩ := ihk h2
        exact ⟨k2, by simp [kidsOf, h1, hk2]⟩
      · have h3 : hasElem q k = false := by simpa using h2
        have h4 : hasElem q n = true := by
          simp only [hasElem, Bool.or_eq_true, beq_iff_eq] at h
          rcases h with (h | h) | h
          · exact absurd h h1
          · exact absurd h h2
          · exact h
        obtain ⟨k2, hk2⟩ := ihn h4
        exact ⟨k2, by simp [kidsOf, h1, kidsOf_eq_none q k h3, hk2]⟩
  | err t n ihn =>
    simp only [hasElem] at h
    obtain ⟨k2, hk2⟩ := ihn h
    exact ⟨k2, by simp [kidsOf, hk2]⟩

theorem skel_atKids (p : Nat) (f : Dom → Dom) (hf : ∀ k, skel (f k) = skel k) (d : Dom) :
    skel (atKids p f d) = skel d := by
  induction d with
  | nil => rfl
  | elem id k n ihk ihn =>
    by_cases h1 : id = p
    · simp [atKids, h1, skel, hf]
    · by_cases h2 : hasElem p k = true
      · simp [atKids, h1, h2, skel, ihk]
      · simp [atKids, h1, h2, skel, ihn]
  | err t n ihn => simp [atKids, skel, ihn]

theorem kidsOf_atKids_self (p : Nat) (f : Dom → Dom) (d : Dom) :
    kidsOf p (atKids p f d) = (kidsOf p d).map f := by
  induction d with
  | nil => rfl
  | elem id k n ihk ihn =>
    by_cases h1 : id = p
    · simp [atKids, h1, kidsOf]
    · by_cases h2 : hasElem p k = true
      · obtain ⟨k2, hk2⟩ := kidsOf_isSome p k h2
        simp [atKids, h1, h2, kidsOf, ihk, hk2]
      · have h3 : hasElem p k = false := by simpa using h2
        simp [atKids, h1, h3, kidsOf, ihn, kidsOf_eq_none p k h3]
  | err t n ihn => simp [atKids, kidsOf, ihn]

end Dom

namespace Dom

theorem inside_skel (q p : Nat) (d : Dom) : inside q p (skel d) = inside q p d := by
  simp only [inside, kidsOf_skel]
  cases kidsOf p d <;> simp [hasElem_skel]

theorem apart_skel (p q : Nat) (d : Dom) : apart p q (skel d) = apart p q d := by
  simp only [apart, inside_skel]

/-- Rewriting the children of `p` leaves the children of an element apart from
`p` as they were. -/
theorem kidsOf_atKids_apart (p q : Nat) (f : Dom → Dom)
    (hf : ∀ k, hasElem q (f k) = hasElem q k) (hpq : p ≠ q) (d : Dom)
    (h1 : inside q p d = false) (h2 : inside p q d = false) :
    kidsOf q (atKids p f d) = kidsOf q d := by
  induction d with
  | nil => rfl
  | elem id k n ihk ihn =>
    by_cases hp : id = p
    · subst hp
      have hqk : hasElem q k = false := by simpa [inside, kidsOf] using h1
      have hqf : hasElem q (f k) = false := by rw [hf]; exact hqk
      simp [atKids, kidsOf, hpq, kidsOf_eq_none q k hqk, kidsOf_eq_none q (f k) hqf]
    · by_cases hk : hasElem p k = true
      · obtain ⟨kp, hkp⟩ := kidsOf_isSome p k hk
        by_cases hq : id = q
        · subst hq
          simp [inside, kidsOf, hk] at h2
        · have e1 : inside q p k = false := by
            simpa [inside, kidsOf, hp, hkp] using h1
          have e2 : inside p q k = false := by
            cases hqk : kidsOf q k with
            | none => simp [inside, hqk]
            | some kq => simpa [inside, kidsOf, hq, hqk] using h2
          simp [atKids, hp, hk, kidsOf, hq, ihk e1 e2]
      · have hk2 : hasElem p k = false := by simpa using hk
        by_cases hq : id = q
        · subst hq
          simp [atKids, hp, hk2, kidsOf]
        · cases hqk : kidsOf q k with
          | some kq => simp [atKids, hp, hk2, kidsOf, hq, hqk]
          | none =>
            have e1 : inside q p n = false := by
              simpa [inside, kidsOf, hp, kidsOf_eq_none p k hk2] using h1
            have e2 : inside p q n = false := by
              simpa [inside, kidsOf, hq, hqk] using h2
            simp [atKids, hp, hk2, kidsOf, hq, hqk, ihn e1 e2]
  | err t n ihn =>
    have e1 : inside q p n = false := by simpa [inside, kidsOf] using h1
    have e2 : inside p q n = false := by simpa [inside, kidsOf] using h2
    simp [atKids, kidsOf, ihn e1 e2]

theorem hasElem_dropFirstErr (q : Nat) (d : Dom) : hasElem q (dropFirstErr d) = hasElem q d := by
  rw [← hasElem_skel, skel_dropFirstErr, hasElem_skel]

theorem hasElem_pushErr (q : Nat) (t : List Char) (d : Dom) :
    hasElem q (pushErr t d) = hasElem q d := by
  rw [← hasElem_skel, skel_pushErr, hasElem_skel]

theorem errsUnder_atKids_self (p : Nat) (f : Dom → Dom) (d : Dom) :
    errsUnder p (atKids p f d) =
      match kidsOf p d with
      | some k => errs (f k)
      | none => [] := by
  simp only [errsUnder, kidsOf_atKids_self]
  cases kidsOf p d <;> rfl

theorem errsUnder_atKids_apart (p q : Nat) (f : Dom → Dom)
    (hf : ∀ k, skel (f k) = skel k) (d : Dom) (h : apart p q d = true) :
    errsUnder q (atKids p f d) = errsUnder q d := by
  simp only [apart, Bool.and_eq_true, bne_iff_ne, ne_eq, Bool.not_eq_true'] at h
  obtain ⟨⟨hpq, h1⟩, h2⟩ := h
  have hf2 : ∀ k, hasElem q (f k) = hasElem q k := by
    intro k
    rw [← hasElem_skel, hf, hasElem_skel]
  simp only [errsUnder, kidsOf_atKids_apart p q f hf2 hpq d h1 h2]

end Dom

/-- The tree `validateField` leaves. -/
theorem validateField_tree (pg : Page) (f : Field) :
    (validateField pg f).2.tree =
      if (checkField f).1 then pg.tree.atKids f.parent Dom.dropFirstErr
      else (pg.tree.atKids f.parent Dom.dropFirstErr).atKids f.parent
        (Dom.pushErr (checkField f).2) := by
  rw [validateField_eq]
  cases (checkField f).1 <;> rfl

theorem validateField_skel (pg : Page) (f : Field) :
    (validateField pg f).2.tree.skel = pg.tree.skel := by
  rw [validateField_tree]
  cases (checkField f).1
  · simp only [Bool.false_eq_true, if_false]
    rw [Dom.skel_atKids _ _ (Dom.skel_pushErr _), Dom.skel_atKids _ _ Dom.skel_dropFirstErr]
  · simp only [if_true]
    rw [Dom.skel_atKids _ _ Dom.skel_dropFirstErr]

/-- Under its own parent, `validateField` removes the first indicator and, when
the field is invalid, adds one with the field's reason after the others. -/
theorem validateField_errsUnder_self (pg : Page) (f : Field)
    (hp : pg.tree.hasElem f.parent = true) :
    (validateField pg f).2.tree.errsUnder f.parent =
      if (checkField f).1 then (pg.tree.errsUnder f.parent).tail
      else (pg.tree.errsUnder f.parent).tail ++ [(checkField f).2] := by
  obtain ⟨k, hk⟩ := Dom.kidsOf_isSome _ _ hp
  rw [validateField_tree]
  cases (checkField f).1
  · simp only [Bool.false_eq_true, if_false]
    rw [Dom.errsUnder_atKids_self, Dom.kidsOf_atKids_self, hk]
    simp [Dom.errsUnder, hk, Dom.errs_pushErr, Dom.errs_dropFirstErr]
  · simp only [if_true]
    rw [Dom.errsUnder_atKids_self, hk]
    simp [Dom.errsUnder, hk, Dom.errs_dropFirstErr]

/-- Under an element apart from the field's parent nothing changes. -/
theorem validateField_errsUnder_apart (pg : Page) (f : Field) (q : Nat)
    (h : Dom.apart f.parent q pg.tree = true) :
    (validateField pg f).2.tree.errsUnder q = pg.tree.errsUnder q := by
  have h2 : Dom.apart f.parent q (pg.tree.atKids f.parent Dom.dropFirstErr) = true := by
    rw [← Dom.apart_skel, Dom.skel_atKids _ _ Dom.skel_dropFirstErr, Dom.apart_skel]
    exact h
  rw [validateField_tree]
  cases (checkField f).1
  · simp only [Bool.false_eq_true, if_false]
    rw [Dom.errsUnder_atKids_apart _ _ _ (Dom.skel_pushErr _) _ h2,
      Dom.errsUnder_atKids_apart _ _ _ Dom.skel_dropFirstErr _ h]
  · simp only [if_true]
    rw [Dom.errsUnder_atKids_apart _ _ _ Dom.skel_dropFirstErr _ h]

theorem foldl_validateField_skel (l : List Field) (pg : Page) :
    (l.foldl (fun p f => (validateField p f).2) pg).tree.skel = pg.tree.skel := by
  induction l generalizing pg with
  | nil => rfl
  | cons f l ih => simp only [List.foldl_cons]; rw [ih, validateField_skel]

theorem foldl_validateField_errsUnder_apart (l : List Field) (pg : Page) (q : Nat)
    (h : ∀ f ∈ l, Dom.apart f.parent q pg.tree = true) :
    (l.foldl (fun p f => (validateField p f).2) pg).tree.errsUnder q = pg.tree.errsUnder q := by
  induction l generalizing pg with
  | nil => rfl
  | cons f l ih =>
    simp only [List.foldl_cons]
    rw [ih, validateField_errsUnder_apart pg f q (h f (List.mem_cons_self _ _))]
    intro g hg
    rw [← Dom.apart_skel, validateField_skel, Dom.apart_skel]
    exact h g (List.mem_cons_of_mem _ hg)

theorem apart_symm (p q : Nat) (d : Dom) (h : Dom.apart p q d = true) :
    Dom.apart q p d = true := by
  simp only [Dom.apart, Bool.and_eq_true, bne_iff_ne, ne_eq, Bool.not_eq_true'] at h ⊢
  exact ⟨⟨fun e => h.1.1 e.symm, h.2⟩, h.1.2⟩

/-- The loop of `validateForm` over fields whose parents are pairwise apart. -/
theorem foldl_validateField_indicators (l : List Field) (pg : Page)
    (hpresent : ∀ f ∈ l, pg.tree.hasElem f.parent = true)
    (hapart : l.Pairwise (fun f g => Dom.apart f.parent g.parent pg.tree = true))
    (hone : ∀ f ∈ l, (pg.tree.errsUnder f.parent).length ≤ 1) :
    ∀ f ∈ l, (l.foldl (fun p f => (validateField p f).2) pg).tree.errsUnder f.parent =
      if (checkField f).1 then [] else [(checkField f).2] := by
  induction l generalizing pg with
  | nil => intro f hf; simp at hf
  | cons g l ih =>
    rw [List.pairwise_cons] at hapart
    obtain ⟨hg, hl⟩ := hapart
    have hsk : (validateField pg g).2.tree.skel = pg.tree.skel := validateField_skel pg g
    have hap : ∀ a b, Dom.apart a b (validateField pg g).2.tree = Dom.apart a b pg.tree := by
      intro a b
      rw [← Dom.apart_skel, hsk, Dom.apart_skel]
    intro f hf
    simp only [List.foldl_cons]
    rcases List.mem_cons.mp hf with hfg | hfl
    · subst hfg
      rw [foldl_validateField_errsUnder_apart l _ f.parent, validateField_errsUnder_self pg f
        (hpresent f (List.mem_cons_self _ _))]
      · have hlen := hone f (List.mem_cons_self _ _)
        have htail : (pg.tree.errsUnder f.parent).tail = [] := by
          cases hE : pg.tree.errsUnder f.parent with
          | nil => rfl
          | cons a r =>
            rw [hE] at hlen
            simp only [List.length_cons] at hlen
            have : r.length = 0 := by omega
            simpa using this
        rw [htail]
        rfl
      · intro h hh
        rw [hap]
        exact apart_symm _ _ _ (hg h hh)
    · apply ih
      · intro h hh
        rw [← Dom.hasElem_skel, hsk, Dom.hasElem_skel]
        exact hpresent h (List.mem_cons_of_mem _ hh)
      · exact hl.imp (fun {a b} hab => by rw [hap]; exact hab)
      · intro h hh
        rw [validateField_errsUnder_apart pg g h.parent (hg h hh)]
        exact hone h (List.mem_cons_of_mem _ hh)
      · exact hfl

/-! ## The submit handler and the settling of its request -/

theorem submitHandler_valid (pg : Page) (form : Form)
    (hvalid : (validateForm pg form).1 = true) :
    submitHandler pg form =
      { (validateForm pg form).2 with
        btnHTML := sendingHTML, btnDisabled := true,
        requests := pg.requests ++ [submitRequest (formObject form.entries)],
        pending := pg.pending ++ [pg.btnHTML] } := by
  have hrest := validateForm_rest pg form
  simp only [Page.rest, Prod.mk.injEq] at hrest
  obtain ⟨h1, _, h3, h4, _, _⟩ := hrest
  simp only [submitHandler, hvalid, Bool.not_true, Bool.false_eq_true, if_false, h1, h3, h4]

theorem submitHandler_invalid (pg : Page) (form : Form)
    (hinvalid : (validateForm pg form).1 = false) :
    submitHandler pg form = (validateForm pg form).2 := by
  simp only [submitHandler, hinvalid, Bool.not_false, if_true]

theorem errorText_cases (m : JSVal) :
    (∀ text, m.truthy = true → m.toStr = some text →
      errorText m = some ("Error: ".toList ++ text)) ∧
    (m.truthy = true → m.toStr = none → errorText m = none) ∧
    (m.truthy = false → errorText m = some "Error: Something went wrong!".toList) := by
  refine ⟨?_, ?_, ?_⟩
  · intro text ht hs
    simp only [errorText, ht, if_true, hs]
  · intro ht hs
    simp only [errorText, ht, if_true, hs]
  · intro ht
    simp only [errorText, ht, Bool.false_eq_true, if_false]
    decide

/-- The chain run on a failure: a network error, or a response whose status is
not 200. -/
theorem settle_failure (pg : Page) (i : Nat) (originalContent : String) (outcome : Outcome)
    (hpending : pg.pending.get? i = some originalContent)
    (hfail : ∀ r, outcome = Outcome.response r → r.status ≠ 200) :
    (settle pg i outcome).location = pg.location ∧
    (settle pg i outcome).btnHTML = originalContent ∧
    (settle pg i outcome).btnDisabled = false ∧
    (settle pg i outcome).pending = pg.pending.eraseIdx i ∧
    (settle pg i outcome).requests = pg.requests ∧
    ∃ text, (settle pg i outcome).notifications = pg.notifications.tail ++ [(text, "error")] ∧
      (∀ r m, outcome = Outcome.response r → r.json = ResponseJson.value m →
        text = (errorText m).getD
          "Something went wrong! Please try again or contact me directly via email.".toList) ∧
      ((∀ r m, outcome = Outcome.response r → r.json ≠ ResponseJson.value m) →
        text =
          "Something went wrong! Please try again or contact me directly via email.".toList) := by
  cases outcome with
  | networkError =>
    refine ⟨?_, ?_, ?_, ?_, ?_,
      "Something went wrong! Please try again or contact me directly via email.".toList,
      ?_, ?_, ?_⟩
    · simp only [settle, hpending, catchCallback, showNotification, finallyCallback]
    · simp only [settle, hpending, catchCallback, showNotification, finallyCallback]
    · simp only [settle, hpending, catchCallback, showNotification, finallyCallback]
    · simp only [settle, hpending, catchCallback, showNotification, finallyCallback]
    · simp only [settle, hpending, catchCallback, showNotification, finallyCallback]
    · simp only [settle, hpending, catchCallback, showNotification, finallyCallback]
    · intro r m h
      cases h
    · intro _
      rfl
  | response r =>
    have hs : r.status ≠ 200 := hfail r rfl
    cases hj : r.json with
    | rejects =>
      have hthen : thenCallback { pg with pending := pg.pending.eraseIdx i } r = none := by
        simp [thenCallback, hj]
      refine ⟨?_, ?_, ?_, ?_, ?_,
        "Something went wrong! Please try again or contact me directly via email.".toList,
        ?_, ?_, ?_⟩
      · simp only [settle, hpending, hthen, catchCallback, showNotification, finallyCallback]
      · simp only [settle, hpending, hthen, catchCallback, showNotification, finallyCallback]
      · simp only [settle, hpending, hthen, catchCallback, showNotification, finallyCallback]
      · simp only [settle, hpending, hthen, catchCallback, showNotification, finallyCallback]
      · simp only [settle, hpending, hthen, catchCallback, showNotification, finallyCallback]
      · simp only [settle, hpending, hthen, catchCallback, showNotification, finallyCallback]
      · intro r2 m h h2
        cases h
        rw [hj] at h2
        cases h2
      · intro _
        rfl
    | null =>
      have hthen : thenCallback { pg with pending := pg.pending.eraseIdx i } r = none := by
        simp [thenCallback, hj, hs]
      refine ⟨?_, ?_, ?_, ?_, ?_,
        "Something went wrong! Please try again or contact me directly via email.".toList,
        ?_, ?_, ?_⟩
      · simp only [settle, hpending, hthen, catchCallback, showNotification, finallyCallback]
      · simp only [settle, hpending, hthen, catchCallback, showNotification, finallyCallback]
      · simp only [settle, hpending, hthen, catchCallback, showNotification, finallyCallback]
      · simp only [settle, hpending, hthen, catchCallback, showNotification, finallyCallback]
      · simp only [settle, hpending, hthen, catchCallback, showNotification, finallyCallback]
      · simp only [settle, hpending, hthen, catchCallback, showNotification, finallyCallback]
      · intro r2 m h h2
        cases h
        rw [hj] at h2
        cases h2
      · intro _
        rfl
    | value msg =>
      cases he : errorText msg with
      | none =>
        have hthen : thenCallback { pg with pending := pg.pending.eraseIdx i } r = none := by
          simp [thenCallback, hj, hs, he]
        refine ⟨?_, ?_, ?_, ?_, ?_,
          "Something went wrong! Please try again or contact me directly via email.".toList,
          ?_, ?_, ?_⟩
        · simp only [settle, hpending, hthen, catchCallback, showNotification, finallyCallback]
        · simp only [settle, hpending, hthen, catchCallback, showNotification, finallyCallback]
        · simp only [settle, hpending, hthen, catchCallback, showNotification, finallyCallback]
        · simp only [settle, hpending, hthen, catchCallback, showNotification, finallyCallback]
        · simp only [settle, hpending, hthen, catchCallback, showNotification, finallyCallback]
        · simp only [settle, hpending, hthen, catchCallback, showNotification, finallyCallback]
        · intro r2 m h h2
          cases h
          rw [hj] at h2
          cases h2
          rw [he]
          rfl
        · intro h
          exact absurd hj (h r msg rfl)
      | some t =>
        have hthen : thenCallback { pg with pending := pg.pending.eraseIdx i } r =
            some (showNotification { pg with pending := pg.pending.eraseIdx i } t "error") := by
          simp [thenCallback, hj, hs, he]
        refine ⟨?_, ?_, ?_, ?_, ?_, t, ?_, ?_, ?_⟩
        · simp only [settle, hpending, hthen, showNotification, finallyCallback]
        · simp only [settle, hpending, hthen, showNotification, finallyCallback]
        · simp only [settle, hpending, hthen, showNotification, finallyCallback]
        · simp only [settle, hpending, hthen, showNotification, finallyCallback]
        · simp only [settle, hpending, hthen, showNotification, finallyCallback]
        · simp only [settle, hpending, hthen, showNotification, finallyCallback]
        · intro r2 m h h2
          cases h
          rw [hj] at h2
          cases h2
          rw [he]
          rfl
        · intro h
          exact absurd hj (h r msg rfl)

/-- The chain run on a response with status 200 and a JSON body. -/
theorem settle_status_ok (pg : Page) (i : Nat) (originalContent : String) (r : Response)
    (hpending : pg.pending.get? i = some originalContent)
    (hstatus : r.status = 200) (hjson : r.json ≠ ResponseJson.rejects) :
    (settle pg i (Outcome.response r)).location = some "thankyou.html" ∧
    (settle pg i (Outcome.response r)).notifications = pg.notifications ∧
    (settle pg i (Outcome.response r)).btnHTML = originalContent ∧
    (settle pg i (Outcome.response r)).btnDisabled = false ∧
    (settle pg i (Outcome.response r)).pending = pg.pending.eraseIdx i ∧
    (settle pg i (Outcome.response r)).requests = pg.requests := by
  have hthen : thenCallback { pg with pending := pg.pending.eraseIdx i } r =
      some { { pg with pending := pg.pending.eraseIdx i } with
        location := some "thankyou.html" } := by
    unfold thenCallback
    cases hj : r.json with
    | rejects => exact absurd hj hjson
    | null => simp [hstatus]
    | value m => simp [hstatus]
  simp only [settle, hpending, hthen, finallyCallback, and_self]

theorem thenCallback_keeps (pg p : Page) (r : Response) (h : thenCallback pg r = some p) :
    p.pending = pg.pending ∧ p.requests = pg.requests := by
  unfold thenCallback at h
  cases hj : r.json with
  | rejects => simp [hj] at h
  | null =>
    by_cases hs : r.status = 200
    · simp only [hj, hs, if_true, Option.some.injEq] at h
      subst h
      exact ⟨rfl, rfl⟩
    · simp [hj, hs] at h
  | value m =>
    by_cases hs : r.status = 200
    · simp only [hj, hs, if_true, Option.some.injEq] at h
      subst h
      exact ⟨rfl, rfl⟩
    · cases he : errorText m with
      | none => simp [hj, hs, he] at h
      | some text =>
        simp only [hj, hs, if_false, he, Option.some.injEq] at h
        subst h
        exact ⟨rfl, rfl⟩

/-- Whatever the outcome, the chain restores the button and takes the request
off the pending ones. -/
theorem settle_button (pg : Page) (i : Nat) (originalContent : String) (outcome : Outcome)
    (hpending : pg.pending.get? i = some originalContent) :
    (settle pg i outcome).btnHTML = originalContent ∧
    (settle pg i outcome).btnDisabled = false ∧
    (settle pg i outcome).pending = pg.pending.eraseIdx i ∧
    (settle pg i outcome).requests = pg.requests := by
  cases outcome with
  | networkError =>
    simp only [settle, hpending, catchCallback, showNotification, finallyCallback, and_self]
  | response r =>
    cases ht : thenCallback { pg with pending := pg.pending.eraseIdx i } r with
    | none =>
      simp only [settle, hpending, ht, catchCallback, showNotification, finallyCallback,
        and_self]
    | some p =>
      obtain ⟨h1, h2⟩ := thenCallback_keeps _ p r ht
      simp only [settle, hpending, ht, finallyCallback, h1, h2, and_self]

theorem settle_none (pg : Page) (i : Nat) (outcome : Outcome)
    (hpending : pg.pending.get? i = none) : settle pg i outcome = pg := by
  simp only [settle, hpending]

/-- Every event keeps the button and the pending requests in agreement, as
long as no `submit` event is handed over while the button is disabled. -/
theorem step_oneAtATime (deliver : Page → Bool)
    (hdeliver : ∀ pg, pg.btnDisabled = true → deliver pg = false)
    (label : String) (pg : Page) (ev : Event) (h : oneAtATime label pg) :
    oneAtATime label (step deliver pg ev) := by
  cases ev with
  | submit form =>
    by_cases hd : deliver pg = true
    · simp only [step, hd, if_true]
      rcases h with ⟨hp, hb, hl⟩ | ⟨_, hb, _⟩
      · have hrest := validateForm_rest pg form
        simp only [Page.rest, Prod.mk.injEq] at hrest
        obtain ⟨h1, h2, _, h4, _, _⟩ := hrest
        cases hv : (validateForm pg form).1 with
        | false =>
          rw [submitHandler_invalid pg form hv]
          exact Or.inl ⟨h4.trans hp, h2.trans hb, h1.trans hl⟩
        | true =>
          rw [submitHandler_valid pg form hv]
          refine Or.inr ⟨?_, rfl, rfl⟩
          simp [hp, hl]
      · rw [hdeliver pg hb] at hd
        exact absurd hd (by simp)
    · have hd2 : deliver pg = false := by simpa using hd
      simp only [step, hd2, Bool.false_eq_true, if_false]
      exact h
  | settled i outcome =>
    simp only [step]
    rcases h with ⟨hp, hb, hl⟩ | ⟨hp, hb, hl⟩
    · rw [settle_none pg i outcome (by simp [hp])]
      exact Or.inl ⟨hp, hb, hl⟩
    · cases i with
      | zero =>
        obtain ⟨h1, h2, h3, _⟩ := settle_button pg 0 label outcome (by simp [hp])
        refine Or.inl ⟨?_, h2, h1⟩
        rw [h3, hp]
        rfl
      | succ n =>
        rw [settle_none pg (n + 1) outcome (by simp [hp])]
        exact Or.inr ⟨hp, hb, hl⟩
  | validate field =>
    have hrest := validateField_rest pg field
    simp only [Page.rest, Prod.mk.injEq] at hrest
    obtain ⟨h1, h2, _, h4, _, _⟩ := hrest
    simp only [step]
    rcases h with ⟨hp, hb, hl⟩ | ⟨hp, hb, hl⟩
    · exact Or.inl ⟨h4.trans hp, h2.trans hb, h1.trans hl⟩
    · exact Or.inr ⟨h4.trans hp, h2.trans hb, h1.trans hl⟩

theorem run_oneAtATime (deliver : Page → Bool)
    (hdeliver : ∀ pg, pg.btnDisabled = true → deliver pg = false)
    (label : String) (events : List Event) (pg : Page) (h : oneAtATime label pg) :
    oneAtATime label (run deliver pg events) := by
  induction events generalizing pg with
  | nil => exact h
  | cons ev evs ih =>
    simp only [run, List.foldl_cons]
    exact ih _ (step_oneAtATime deliver hdeliver label pg ev h)

/-! ## The theme toggle -/

theorem initThemeToggle_listening (st : ThemePage) (h : st.hasToggle = true) :
    (initThemeToggle st).listening = true := by
  simp only [initThemeToggle, h, Bool.not_true, Bool.false_eq_true, if_false]

theorem initThemeToggle_lightMode (st : ThemePage) (h : st.hasToggle = true) :
    (initThemeToggle st).lightMode = (st.lightMode || decide (st.stored = some "light")) := by
  simp only [initThemeToggle, h, Bool.not_true, Bool.false_eq_true, if_false]
  cases hs : st.stored with
  | none => simp
  | some v =>
    by_cases hv : v = "light"
    · subst hv
      have : ¬ ("light" : String) = "" := by decide
      simp [this]
    · by_cases he : v = ""
      · subst he
        have : ¬ ("dark" : String) = "light" := by decide
        simp [this, hv]
      · simp [he, hv]

theorem initThemeToggle_stored (st : ThemePage) : (initThemeToggle st).stored = st.stored := by
  simp only [initThemeToggle]
  split_ifs <;> rfl

theorem themeClick_listening (st : ThemePage) (h : st.listening = true) :
    (themeClick st).listening = true := by
  simp only [themeClick, h, Bool.not_true, Bool.false_eq_true, if_false]

theorem themeClick_lightMode (st : ThemePage) (h : st.listening = true) :
    (themeClick st).lightMode = !st.lightMode := by
  simp only [themeClick, h, Bool.not_true, Bool.false_eq_true, if_false]

theorem themeClick_stored (st : ThemePage) (h : st.listening = true) :
    (themeClick st).stored = some (if (themeClick st).lightMode then "light" else "dark") := by
  simp only [themeClick, h, Bool.not_true, Bool.false_eq_true, if_false]

theorem iterate_themeClick_listening (st : ThemePage) (h : st.listening = true) (n : Nat) :
    (themeClick^[n] st).listening = true := by
  induction n with
  | zero => exact h
  | succ n ih =>
    rw [Function.iterate_succ_apply']
    exact themeClick_listening _ ih

/-! ## Numbers as `parseInt` reads them and a template literal prints them -/

/-- Below 2^53 a non-negative number is printed by its decimal digits. -/
theorem numberToString_safe (N : Int) (h0 : 0 ≤ N) (h : N < 2 ^ 53) :
    numberToString (JSNumber.finite N) = (toString N).toList := by
  obtain ⟨m, rfl⟩ := Int.eq_ofNat_of_zero_le h0
  have hm : m < 2 ^ 53 := by exact_mod_cast h
  have hneg : ¬ ((m : Int) < 0) := by omega
  simp only [numberToString, hneg, if_false, List.nil_append, Int.natAbs_ofNat, printNat, hm,
    if_true, decimal]
  rfl

/-- An integer that is no number of its own is rounded: 2^53 + 1 reads as
2^53, and is printed so. -/
theorem parseInt_rounds :
    parseInt "9007199254740993".toList = JSNumber.finite 9007199254740992 ∧
    numberToString (parseInt "9007199254740993".toList) = "9007199254740992".toList := by
  decide

/-- From 21 digits on the number is printed in exponent form. -/
theorem numberToString_exponent :
    numberToString (parseInt "1000000000000000000000".toList) = "1e+21".toList := by
  decide

/-! ## Field validation: the claims -/

/-- C1, as stated, fails: on a required e-mail input with `minlength="8"`
holding `abc` the e-mail rule and the minimum-length rule both fail, the
e-mail rule first, and the text shown is that of the minimum-length rule. -/
theorem validateField_first_rule_refuted :
    failingRules shortEmailField = [Rule.email, Rule.minLength] ∧
    (validateField (freshPage oneFieldTree "Send") shortEmailField).1 = false ∧
    (validateField (freshPage oneFieldTree "Send") shortEmailField).2.tree.errsUnder 0
      = ["Minimum 8 characters required".toList] ∧
    (validateField (freshPage oneFieldTree "Send") shortEmailField).2.tree.errsUnder 0
      ≠ ["Please enter a valid email address".toList] := by
  decide

/-- C1, amended: when `validateField` finds the field invalid, the text it
hands to `showErrorMessage` is the text of the LAST rule that fails, in the
order required, e-mail, telephone, minimum length; so on a field where the
e-mail rule and the minimum-length rule both fail, the text shown is the one
of the minimum-length rule. -/
theorem validateField_reason_last_failing (pg : Page) (f : Field)
    (h : (validateField pg f).1 = false) :
    (∃ r, (failingRules f).getLast? = some r ∧
      (validateField pg f).2 =
        showErrorMessage (setBorder (noteCall pg f) f "#ef4444") f (ruleReason f r)) ∧
    (ruleFails f Rule.email = true → ruleFails f Rule.minLength = true →
      (validateField pg f).2 =
        showErrorMessage (setBorder (noteCall pg f) f "#ef4444") f
          (ruleReason f Rule.minLength)) := by
  rw [validateField_fst] at h
  rw [validateField_eq, h]
  simp only [Bool.false_eq_true, if_false]
  rw [checkField_eq] at h ⊢
  simp only [failingRules, ruleOrder, List.filter_cons, List.filter_nil]
  cases h1 : ruleFails f Rule.required <;> cases h2 : ruleFails f Rule.email <;>
    cases h3 : ruleFails f Rule.telephone <;> cases h4 : ruleFails f Rule.minLength <;>
    simp [h1, h2, h3, h4] at h ⊢

theorem validateField_reason_last_failing_witness :
    (validateField (freshPage oneFieldTree "Send") shortEmailField).1 = false ∧
    (∃ r, (failingRules shortEmailField).getLast? = some r ∧
      (validateField (freshPage oneFieldTree "Send") shortEmailField).2 =
        showErrorMessage
          (setBorder (noteCall (freshPage oneFieldTree "Send") shortEmailField)
            shortEmailField "#ef4444")
          shortEmailField (ruleReason shortEmailField r)) ∧
    (ruleFails shortEmailField Rule.email = true →
      ruleFails shortEmailField Rule.minLength = true →
      (validateField (freshPage oneFieldTree "Send") shortEmailField).2 =
        showErrorMessage
          (setBorder (noteCall (freshPage oneFieldTree "Send") shortEmailField)
            shortEmailField "#ef4444")
          shortEmailField (ruleReason shortEmailField Rule.minLength)) :=
  ⟨by decide, validateField_reason_last_failing _ _ (by decide)⟩

/-- C2: a field with the `required` attribute whose value is empty or all
white space is invalid, and the text handed to `showErrorMessage` is exactly
"This field is required", whatever its type and its `minlength`; when the
parent of the field is in the document, the last error indicator under it
carries that text. -/
theorem validateField_required_empty (pg : Page) (f : Field)
    (hreq : f.required = true) (hws : ∀ c ∈ f.value, isJSWhiteSpace c = true) :
    (validateField pg f).1 = false ∧
      (validateField pg f).2 =
        showErrorMessage (setBorder (noteCall pg f) f "#ef4444") f
          "This field is required".toList ∧
      (pg.tree.hasElem f.parent = true →
        ((validateField pg f).2.tree.errsUnder f.parent).getLast? =
          some "This field is required".toList) := by
  have hv : jsTrim f.value = [] := jsTrim_eq_nil _ hws
  have h4 : ruleFails f Rule.minLength = false := by
    simp only [ruleFails, hv, jsLength]
    cases f.minlength <;> simp
  have h3 : ruleFails f Rule.telephone = false := by simp [ruleFails, hv]
  have h2 : ruleFails f Rule.email = false := by simp [ruleFails, hv]
  have h1 : ruleFails f Rule.required = true := by simp [ruleFails, hv, hreq]
  have hc : checkField f = (false, "This field is required".toList) := by
    rw [checkField_eq, h1, h2, h3, h4]
    rfl
  refine ⟨?_, ?_, ?_⟩
  · rw [validateField_eq, hc]
    rfl
  · rw [validateField_eq, hc]
    rfl
  · intro hp
    rw [validateField_errsUnder_self pg f hp, hc]
    simp

theorem validateField_required_empty_witness :
    (validateField (freshPage oneFieldTree "Send")
        { shortEmailField with value := "  ".toList }).1 = false ∧
      (validateField (freshPage oneFieldTree "Send")
        { shortEmailField with value := "  ".toList }).2 =
        showErrorMessage
          (setBorder (noteCall (freshPage oneFieldTree "Send")
            { shortEmailField with value := "  ".toList })
            { shortEmailField with value := "  ".toList } "#ef4444")
          { shortEmailField with value := "  ".toList }
          "This field is required".toList ∧
      ((freshPage oneFieldTree "Send").tree.hasElem
          { shortEmailField with value := "  ".toList }.parent = true →
        ((validateField (freshPage oneFieldTree "Send")
          { shortEmailField with value := "  ".toList }).2.tree.errsUnder
            { shortEmailField with value := "  ".toList }.parent).getLast? =
          some "This field is required".toList) :=
  validateField_required_empty _ _ (by decide) (by decide)

/-- C3, as stated, fails: `a@b.c@d` matches the pattern as the specification
words it (its last part, `c@d`, has no white space), it is not empty, no other
rule fails on the field, and `validateField` finds the field invalid. -/
theorem validateField_email_spec_pattern_refuted :
    ruleFails twoAtEmailField Rule.required = false ∧
    ruleFails twoAtEmailField Rule.minLength = false ∧
    ¬ ((validateField (freshPage oneFieldTree "Send") twoAtEmailField).1 = true ↔
        (jsTrim twoAtEmailField.value = [] ∨
          specEmailPattern.test (jsTrim twoAtEmailField.value) = true)) := by
  decide

/-- C3, amended: on an e-mail field on which neither the required rule nor the
minimum-length rule fails, `validateField` returns `true` exactly when the
trimmed value is empty or is made of one or more characters that are neither
white space nor `@`, then `@`, then one or more such characters, then `.`,
then one or more such characters again (the last part too excludes `@`).  With
the value `not-an-email` the field is invalid and the text shown is "Please
enter a valid email address"; with `a@b.co` it is valid. -/
theorem validateField_email_iff (pg : Page) (f : Field)
    (hkind : f.type = "email")
    (hreq : ruleFails f Rule.required = false)
    (hmin : ruleFails f Rule.minLength = false) :
    ((validateField pg f).1 = true ↔
      (jsTrim f.value = [] ∨
        ∃ a b c, jsTrim f.value = a ++ '@' :: (b ++ '.' :: c) ∧ a ≠ [] ∧ b ≠ [] ∧ c ≠ [] ∧
          ∀ ch ∈ a ++ b ++ c, isJSWhiteSpace ch = false ∧ ch ≠ '@')) ∧
    (f.value = "not-an-email".toList →
      (validateField pg f).1 = false ∧
      (validateField pg f).2 =
        showErrorMessage (setBorder (noteCall pg f) f "#ef4444") f
          "Please enter a valid email address".toList) ∧
    (f.value = "a@b.co".toList → (validateField pg f).1 = true) := by
  have htel : ruleFails f Rule.telephone = false := by
    simp only [ruleFails, hkind]
    have : (("email" : String) == "tel") = false := by decide
    simp [this]
  have hmail : ruleFails f Rule.email =
      (jsTrim f.value != [] && !emailRegex.test (jsTrim f.value)) := by
    simp only [ruleFails, hkind]
    have : (("email" : String) == "email") = true := by decide
    simp [this]
  have hiff : (validateField pg f).1 = true ↔
      (jsTrim f.value = [] ∨ emailRegex.test (jsTrim f.value) = true) := by
    rw [validateField_fst, checkField_fst_iff, hreq, htel, hmin, hmail]
    cases hv : jsTrim f.value with
    | nil => simp
    | cons c cs => simp
  refine ⟨?_, ?_, ?_⟩
  · rw [hiff, Regex.test_iff, lang_emailRegex]
  · intro hval
    have hv : jsTrim f.value = "not-an-email".toList := by rw [hval]; decide
    have htest : emailRegex.test "not-an-email".toList = false := by decide
    have hne : ("not-an-email".toList != []) = true := by decide
    have hm : ruleFails f Rule.email = true := by
      rw [hmail, hv, htest, hne]; rfl
    have hc : checkField f = (false, "Please enter a valid email address".toList) := by
      rw [checkField_eq, hm, htel, hmin]
      rfl
    rw [validateField_eq, hc]
    exact ⟨rfl, rfl⟩
  · intro hval
    have hv : jsTrim f.value = "a@b.co".toList := by rw [hval]; decide
    have htest : emailRegex.test "a@b.co".toList = true := by decide
    rw [hiff, hv]
    exact Or.inr htest

theorem validateField_email_iff_witness :
    ((validateField (freshPage oneFieldTree "Send") twoAtEmailField).1 = true ↔
      (jsTrim twoAtEmailField.value = [] ∨
        ∃ a b c, jsTrim twoAtEmailField.value = a ++ '@' :: (b ++ '.' :: c) ∧
          a ≠ [] ∧ b ≠ [] ∧ c ≠ [] ∧
          ∀ ch ∈ a ++ b ++ c, isJSWhiteSpace ch = false ∧ ch ≠ '@')) ∧
    (twoAtEmailField.value = "not-an-email".toList →
      (validateField (freshPage oneFieldTree "Send") twoAtEmailField).1 = false ∧
      (validateField (freshPage oneFieldTree "Send") twoAtEmailField).2 =
        showErrorMessage
          (setBorder (noteCall (freshPage oneFieldTree "Send") twoAtEmailField)
            twoAtEmailField "#ef4444")
          twoAtEmailField "Please enter a valid email address".toList) ∧
    (twoAtEmailField.value = "a@b.co".toList →
      (validateField (freshPage oneFieldTree "Send") twoAtEmailField).1 = true) :=
  validateField_email_iff _ _ (by decide) (by decide) (by decide)

/-- C4: on a telephone field on which neither the required rule nor the
minimum-length rule fails, `validateField` returns `true` exactly when the
value is empty or each of its characters is a digit, white space, `+`, `(`,
`)` or `-`; this holds of the value as trimmed by the code and of the value as
typed alike.  With the value `+1 (555) 123-4567` the field is valid; with
`call-me` it is invalid and the text shown is "Please enter a valid phone
number". -/
theorem validateField_tel_iff (pg : Page) (f : Field)
    (hkind : f.type = "tel")
    (hreq : ruleFails f Rule.required = false)
    (hmin : ruleFails f Rule.minLength = false) :
    ((validateField pg f).1 = true ↔
      (jsTrim f.value = [] ∨
        ∀ ch ∈ jsTrim f.value, (('0' ≤ ch ∧ ch ≤ '9') ∨ isJSWhiteSpace ch = true ∨
          ch = '+' ∨ ch = '(' ∨ ch = ')' ∨ ch = '-'))) ∧
    ((validateField pg f).1 = true ↔
      (f.value = [] ∨
        ∀ ch ∈ f.value, (('0' ≤ ch ∧ ch ≤ '9') ∨ isJSWhiteSpace ch = true ∨
          ch = '+' ∨ ch = '(' ∨ ch = ')' ∨ ch = '-'))) ∧
    (f.value = "+1 (555) 123-4567".toList → (validateField pg f).1 = true) ∧
    (f.value = "call-me".toList →
      (validateField pg f).1 = false ∧
      (validateField pg f).2 =
        showErrorMessage (setBorder (noteCall pg f) f "#ef4444") f
          "Please enter a valid phone number".toList) := by
  have hmail : ruleFails f Rule.email = false := by
    simp only [ruleFails, hkind]
    have : (("tel" : String) == "email") = false := by decide
    simp [this]
  have htel : ruleFails f Rule.telephone =
      (jsTrim f.value != [] && !phoneRegex.test (jsTrim f.value)) := by
    simp only [ruleFails, hkind]
    have : (("tel" : String) == "tel") = true := by decide
    simp [this]
  have hiff : (validateField pg f).1 = true ↔
      (jsTrim f.value = [] ∨ phoneRegex.test (jsTrim f.value) = true) := by
    rw [validateField_fst, checkField_fst_iff, hreq, htel, hmin, hmail]
    cases hv : jsTrim f.value with
    | nil => simp
    | cons c cs => simp
  have htrim : (validateField pg f).1 = true ↔
      (jsTrim f.value = [] ∨
        ∀ ch ∈ jsTrim f.value, (('0' ≤ ch ∧ ch ≤ '9') ∨ isJSWhiteSpace ch = true ∨
          ch = '+' ∨ ch = '(' ∨ ch = ')' ∨ ch = '-')) := by
    rw [hiff, Regex.test_iff, lang_phoneRegex]
    constructor
    · rintro (h | ⟨_, h⟩)
      · exact Or.inl h
      · exact Or.inr (fun ch hch => (isPhoneChar_iff ch).mp (h ch hch))
    · rintro (h | h)
      · exact Or.inl h
      · by_cases hv : jsTrim f.value = []
        · exact Or.inl hv
        · exact Or.inr ⟨hv, fun ch hch => (isPhoneChar_iff ch).mpr (h ch hch)⟩
  refine ⟨htrim, ?_, ?_, ?_⟩
  · rw [htrim]
    constructor
    · intro h
      right
      intro ch hch
      rcases mem_jsTrim_or_ws f.value ch hch with hin | hws
      · rcases h with h | h
        · rw [h] at hin
          simp at hin
        · exact h ch hin
      · exact Or.inr (Or.inl hws)
    · rintro (h | h)
      · left
        rw [h]
        rfl
      · exact Or.inr (fun ch hch => h ch (mem_of_mem_jsTrim f.value ch hch))
  · intro hval
    have hv : jsTrim f.value = "+1 (555) 123-4567".toList := by rw [hval]; decide
    have htest : phoneRegex.test "+1 (555) 123-4567".toList = true := by decide
    rw [hiff, hv]
    exact Or.inr htest
  · intro hval
    have hv : jsTrim f.value = "call-me".toList := by rw [hval]; decide
    have htest : phoneRegex.test "call-me".toList = false := by decide
    have hne : ("call-me".toList != []) = true := by decide
    have hm : ruleFails f Rule.telephone = true := by
      rw [htel, hv, htest, hne]; rfl
    have hc : checkField f = (false, "Please enter a valid phone number".toList) := by
      rw [checkField_eq, hm, hmin]
      rfl
    rw [validateField_eq, hc]
    exact ⟨rfl, rfl⟩

theorem validateField_tel_iff_witness :
    ((validateField (freshPage oneFieldTree "Send") phoneField).1 = true ↔
      (jsTrim phoneField.value = [] ∨
        ∀ ch ∈ jsTrim phoneField.value, (('0' ≤ ch ∧ ch ≤ '9') ∨ isJSWhiteSpace ch = true ∨
          ch = '+' ∨ ch = '(' ∨ ch = ')' ∨ ch = '-'))) ∧
    ((validateField (freshPage oneFieldTree "Send") phoneField).1 = true ↔
      (phoneField.value = [] ∨
        ∀ ch ∈ phoneField.value, (('0' ≤ ch ∧ ch ≤ '9') ∨ isJSWhiteSpace ch = true ∨
          ch = '+' ∨ ch = '(' ∨ ch = ')' ∨ ch = '-'))) ∧
    (phoneField.value = "+1 (555) 123-4567".toList →
      (validateField (freshPage oneFieldTree "Send") phoneField).1 = true) ∧
    (phoneField.value = "call-me".toList →
      (validateField (freshPage oneFieldTree "Send") phoneField).1 = false ∧
      (validateField (freshPage oneFieldTree "Send") phoneField).2 =
        showErrorMessage
          (setBorder (noteCall (freshPage oneFieldTree "Send") phoneField) phoneField "#ef4444")
          phoneField "Please enter a valid phone number".toList) :=
  validateField_tel_iff _ _ (by decide) (by decide) (by decide)

/-- C5, as stated, fails: an optional text input with `minlength="8"` left
empty has trimmed length 0, which is below 8, and `validateField` finds it
valid. -/
theorem validateField_minlength_empty_refuted :
    emptyOptionalField.minlength = some "8".toList ∧
    parseInt "8".toList = JSNumber.finite 8 ∧
    (jsLength (jsTrim emptyOptionalField.value) : Int) < 8 ∧
    (validateField (freshPage oneFieldTree "Send") emptyOptionalField).1 = true := by
  decide

/-- C5, amended: for a field whose `minlength` attribute reads as the number
`N`, the minimum-length rule fails exactly when the trimmed value is not empty
and shorter than `N`.  Every such value makes the field invalid with the text
"Minimum N characters required", `N` as JavaScript prints the number, which
for `N` below 2^53 is `N` in decimal; the empty value and a value of trimmed
length `N` or more leave the verdict and the page as they would be without the
attribute.  With `N = 8`, length 5 gives "Minimum 8 characters required". -/
theorem validateField_minlength (pg : Page) (f : Field) (attr : List Char) (N : Int)
    (hattr : f.minlength = some attr) (hN : parseInt attr = JSNumber.finite N) :
    (ruleFails f Rule.minLength = true ↔
      (0 < jsLength (jsTrim f.value) ∧ (jsLength (jsTrim f.value) : Int) < N)) ∧
    (0 < jsLength (jsTrim f.value) → (jsLength (jsTrim f.value) : Int) < N →
      (validateField pg f).1 = false ∧
      (validateField pg f).2 =
        showErrorMessage (setBorder (noteCall pg f) f "#ef4444") f
          ("Minimum ".toList ++ numberToString (JSNumber.finite N) ++
            " characters required".toList)) ∧
    (0 < jsLength (jsTrim f.value) → (jsLength (jsTrim f.value) : Int) < N → N < 2 ^ 53 →
      (validateField pg f).2 =
        showErrorMessage (setBorder (noteCall pg f) f "#ef4444") f
          ("Minimum ".toList ++ (toString N).toList ++ " characters required".toList)) ∧
    ((jsLength (jsTrim f.value) = 0 ∨ N ≤ (jsLength (jsTrim f.value) : Int)) →
      validateField pg f = validateField pg { f with minlength := none }) ∧
    (N = 8 → jsLength (jsTrim f.value) = 5 →
      (validateField pg f).1 = false ∧
      (validateField pg f).2 =
        showErrorMessage (setBorder (noteCall pg f) f "#ef4444") f
          "Minimum 8 characters required".toList) := by
  have hfail : ruleFails f Rule.minLength = true ↔
      (0 < jsLength (jsTrim f.value) ∧ (jsLength (jsTrim f.value) : Int) < N) := by
    simp [ruleFails, hattr, hN, JSNumber.above]
  have hshow : 0 < jsLength (jsTrim f.value) → (jsLength (jsTrim f.value) : Int) < N →
      (validateField pg f).1 = false ∧
      (validateField pg f).2 =
        showErrorMessage (setBorder (noteCall pg f) f "#ef4444") f
          ("Minimum ".toList ++ numberToString (JSNumber.finite N) ++
            " characters required".toList) := by
    intro h0 h1
    have hm : ruleFails f Rule.minLength = true := hfail.mpr ⟨h0, h1⟩
    have hc : checkField f =
        (false, "Minimum ".toList ++ numberToString (JSNumber.finite N) ++
          " characters required".toList) := by
      rw [checkField_eq, hm]
      simp only [if_true, ruleReason, hattr, hN]
    rw [validateField_eq, hc]
    exact ⟨rfl, rfl⟩
  refine ⟨hfail, hshow, ?_, ?_, ?_⟩
  · intro h0 h1 hsafe
    rw [(hshow h0 h1).2, numberToString_safe N (by omega) hsafe]
  · intro h
    have hm : ruleFails f Rule.minLength = false := by
      rw [Bool.eq_false_iff]
      intro hcon
      have := hfail.mp hcon
      omega
    have hm2 : ruleFails { f with minlength := none } Rule.minLength = false := rfl
    have hc : checkField f = checkField { f with minlength := none } := by
      rw [checkField_eq, checkField_eq, hm, hm2]
      rfl
    rw [validateField_eq, validateField_eq, hc]
    rfl
  · intro h8 h5
    subst h8
    have := hshow (by omega) (by omega)
    exact this

theorem validateField_minlength_witness :
    shortTextField.minlength = some "8".toList ∧
    parseInt "8".toList = JSNumber.finite 8 ∧
    (ruleFails shortTextField Rule.minLength = true ↔
      (0 < jsLength (jsTrim shortTextField.value) ∧
        (jsLength (jsTrim shortTextField.value) : Int) < 8)) ∧
    (0 < jsLength (jsTrim shortTextField.value) →
      (jsLength (jsTrim shortTextField.value) : Int) < 8 →
      (validateField (freshPage oneFieldTree "Send") shortTextField).1 = false ∧
      (validateField (freshPage oneFieldTree "Send") shortTextField).2 =
        showErrorMessage
          (setBorder (noteCall (freshPage oneFieldTree "Send") shortTextField)
            shortTextField "#ef4444")
          shortTextField
          ("Minimum ".toList ++ numberToString (JSNumber.finite 8) ++
            " characters required".toList)) ∧
    (0 < jsLength (jsTrim shortTextField.value) →
      (jsLength (jsTrim shortTextField.value) : Int) < 8 → (8 : Int) < 2 ^ 53 →
      (validateField (freshPage oneFieldTree "Send") shortTextField).2 =
        showErrorMessage
          (setBorder (noteCall (freshPage oneFieldTree "Send") shortTextField)
            shortTextField "#ef4444")
          shortTextField
          ("Minimum ".toList ++ (toString (8 : Int)).toList ++ " characters required".toList)) ∧
    ((jsLength (jsTrim shortTextField.value) = 0 ∨
        (8 : Int) ≤ (jsLength (jsTrim shortTextField.value) : Int)) →
      validateField (freshPage oneFieldTree "Send") shortTextField =
        validateField (freshPage oneFieldTree "Send")
          { shortTextField with minlength := none }) ∧
    ((8 : Int) = 8 → jsLength (jsTrim shortTextField.value) = 5 →
      (validateField (freshPage oneFieldTree "Send") shortTextField).1 = false ∧
      (validateField (freshPage oneFieldTree "Send") shortTextField).2 =
        showErrorMessage
          (setBorder (noteCall (freshPage oneFieldTree "Send") shortTextField)
            shortTextField "#ef4444")
          shortTextField "Minimum 8 characters required".toList) :=
  ⟨by decide, by decide,
    validateField_minlength _ shortTextField "8".toList 8 (by decide) (by decide)⟩

/-! ## Form validation and submission: the claims -/

/-- C6: `validateForm` returns `true` exactly when `validateField` returns
`true` on every `input` or `textarea` of the form that has the `required`
attribute; it enters `validateField` once for each of them, in document
order, whether or not an earlier one failed (the ghost record grows by exactly
their identities, and the page left is the one their calls leave in turn);
controls without the attribute change neither the verdict nor the page. -/
theorem validateForm_all_required (pg : Page) (form : Form) :
    ((validateForm pg form).1 = true ↔
      ∀ f ∈ form.controls, (f.tag = "input" ∨ f.tag = "textarea") → f.required = true →
        (validateField pg f).1 = true) ∧
    (validateForm pg form).2.validated =
      pg.validated ++ (requiredInputs form).map (fun f => f.id) ∧
    (validateForm pg form).2 =
      (requiredInputs form).foldl (fun p f => (validateField p f).2) pg ∧
    validateForm pg form =
      validateForm pg { form with controls := form.controls.filter (fun c => c.required) } := by
  refine ⟨?_, ?_, ?_, ?_⟩
  · rw [validateForm_eq]
    simp only [List.all_eq_true, requiredInputs, List.mem_filter, Bool.and_eq_true,
      Bool.or_eq_true, beq_iff_eq, and_imp, validateField_fst]
  · rw [validateForm_eq]
    exact foldl_validateField_validated _ pg
  · rw [validateForm_eq]
  · have hreq : requiredInputs
        { form with controls := form.controls.filter (fun c => c.required) } =
        requiredInputs form := by
      simp only [requiredInputs, List.filter_filter]
      congr 1
      funext c
      cases c.required <;> simp
    rw [validateForm_eq, validateForm_eq, hreq]

/-- C8: the submit handler hands a request to `fetch` exactly when
`validateForm` returns `true`, and then exactly one: a POST to the fixed
address with JSON content type and JSON accept headers.  When `validateForm`
returns `false` no request is made and the content and enabled state of the
submit button stay as they were. -/
theorem submitHandler_requests (pg : Page) (form : Form) :
    ((validateForm pg form).1 = true →
      ∃ body, (submitHandler pg form).requests = pg.requests ++
        [{ url := "https://api.web3forms.com/submit", method := "POST",
           headers := [("Content-Type", "application/json"), ("Accept", "application/json")],
           body := body }]) ∧
    ((validateForm pg form).1 = false →
      (submitHandler pg form).requests = pg.requests ∧
      (submitHandler pg form).btnHTML = pg.btnHTML ∧
      (submitHandler pg form).btnDisabled = pg.btnDisabled) ∧
    ((submitHandler pg form).requests ≠ pg.requests ↔ (validateForm pg form).1 = true) := by
  have hrest := validateForm_rest pg form
  simp only [Page.rest, Prod.mk.injEq] at hrest
  obtain ⟨h1, h2, h3, _, _, _⟩ := hrest
  cases hv : (validateForm pg form).1 with
  | true =>
    refine ⟨fun _ => ⟨formObject form.entries, ?_⟩, fun h => by simp at h, ?_⟩
    · simp only [submitHandler, hv, h3, submitRequest]
      rfl
    · simp only [submitHandler, hv, h3]
      simp
  | false =>
    refine ⟨fun h => by simp at h, fun _ => ?_, ?_⟩
    · simp only [submitHandler, hv]
      exact ⟨h3, h1, h2⟩
    · simp only [submitHandler, hv]
      simp [h3]

theorem submitHandler_requests_witness :
    ((validateForm (freshPage sharedParentTree "Send") sharedParentForm).1 = false ∧
      (submitHandler (freshPage sharedParentTree "Send") sharedParentForm).requests = [] ∧
      (submitHandler (freshPage sharedParentTree "Send") sharedParentForm).btnHTML = "Send" ∧
      (submitHandler (freshPage sharedParentTree "Send") sharedParentForm).btnDisabled = false) ∧
    ((validateForm (freshPage oneFieldTree "Send") twoTopicsForm).1 = true ∧
      ∃ body, (submitHandler (freshPage oneFieldTree "Send") twoTopicsForm).requests =
        (freshPage oneFieldTree "Send").requests ++
        [{ url := "https://api.web3forms.com/submit", method := "POST",
           headers := [("Content-Type", "application/json"), ("Accept", "application/json")],
           body := body }]) :=
  ⟨⟨by decide,
      (submitHandler_requests (freshPage sharedParentTree "Send") sharedParentForm).2.1
        (by decide)⟩,
    ⟨by decide,
      (submitHandler_requests (freshPage oneFieldTree "Send") twoTopicsForm).1 (by decide)⟩⟩

/-- C9, as stated, fails: with two entries named `topic`, holding `a` and
`b`, the form is valid and the body of the one request sent has the single
member `topic` with value `b`; the value `a` of the first field is not in
it. -/
theorem submitHandler_body_duplicate_refuted :
    (validateForm (freshPage oneFieldTree "Send") twoTopicsForm).1 = true ∧
    ("topic".toList, "a".toList) ∈ twoTopicsForm.entries ∧
    (submitHandler (freshPage oneFieldTree "Send") twoTopicsForm).requests =
      [submitRequest [("topic".toList, "b".toList)]] ∧
    ¬ (∀ e ∈ twoTopicsForm.entries,
        ∃ req ∈ (submitHandler (freshPage oneFieldTree "Send") twoTopicsForm).requests,
          req.body.lookup e.1 = some e.2) := by
  decide

/-- C9, amended: for a form whose required fields are all valid, the body of
the request sent, read as JSON, is an object that maps every submitted name
other than `__proto__` to the value of the LAST entry carrying that name; an
earlier entry with the same name is overwritten. -/
theorem submitHandler_body (pg : Page) (form : Form)
    (hvalid : (validateForm pg form).1 = true) :
    ∃ req, (submitHandler pg form).requests = pg.requests ++ [req] ∧
      ∀ pre post k v, form.entries = pre ++ (k, v) :: post →
        k ≠ "__proto__".toList → (∀ e ∈ post, e.1 ≠ k) →
        req.body.lookup k = some v := by
  have hrest := validateForm_rest pg form
  simp only [Page.rest, Prod.mk.injEq] at hrest
  obtain ⟨_, _, h3, _, _, _⟩ := hrest
  refine ⟨submitRequest (formObject form.entries), ?_, ?_⟩
  · simp only [submitHandler, hvalid, h3]
    rfl
  · intro pre post k v hent hk hpost
    simp only [submitRequest]
    rw [hent]
    exact lookup_formObject pre post k v hk hpost

theorem submitHandler_body_witness :
    (validateForm (freshPage oneFieldTree "Send") twoTopicsForm).1 = true ∧
    ∃ req, (submitHandler (freshPage oneFieldTree "Send") twoTopicsForm).requests =
        (freshPage oneFieldTree "Send").requests ++ [req] ∧
      ∀ pre post k v, twoTopicsForm.entries = pre ++ (k, v) :: post →
        k ≠ "__proto__".toList → (∀ e ∈ post, e.1 ≠ k) →
        req.body.lookup k = some v :=
  ⟨by decide, submitHandler_body _ twoTopicsForm (by decide)⟩

/-- C10, as stated, fails: when the response has status 200 and a body that
is not JSON, `response.json()` rejects before the status is looked at; the
window is not sent anywhere and the error notification of the `catch`
callback is shown. -/
theorem settle_ok_not_json_refuted :
    sentPage.pending = ["Send Message"] ∧
    okNotJson.status = 200 ∧
    (settle sentPage 0 (Outcome.response okNotJson)).location = none ∧
    (settle sentPage 0 (Outcome.response okNotJson)).notifications =
      [("Something went wrong! Please try again or contact me directly via email.".toList,
        "error")] := by
  decide

/-- C10, amended: for every response with status 200 whose body is JSON, the
handler sends the window to `thankyou.html` and shows no notification. -/
theorem settle_ok (pg : Page) (i : Nat) (originalContent : String) (r : Response)
    (hpending : pg.pending.get? i = some originalContent)
    (hstatus : r.status = 200) (hjson : r.json ≠ ResponseJson.rejects) :
    (settle pg i (Outcome.response r)).location = some "thankyou.html" ∧
    (settle pg i (Outcome.response r)).notifications = pg.notifications := by
  have hthen : thenCallback { pg with pending := pg.pending.eraseIdx i } r =
      some { { pg with pending := pg.pending.eraseIdx i } with
        location := some "thankyou.html" } := by
    unfold thenCallback
    cases hj : r.json with
    | rejects => exact absurd hj hjson
    | null => simp [hstatus]
    | value m => simp [hstatus]
  simp only [settle, hpending, hthen]
  exact ⟨rfl, rfl⟩

theorem settle_ok_witness :
    (settle sentPage 0 (Outcome.response { status := 200, json := ResponseJson.null })).location
      = some "thankyou.html" ∧
    (settle sentPage 0
      (Outcome.response { status := 200, json := ResponseJson.null })).notifications
      = sentPage.notifications :=
  settle_ok sentPage 0 "Send Message" _ (by decide) (by decide) (by decide)

/-- C7, as stated, fails: of two required fields that share their parent
element, the first empty and the second filled, the first is invalid, and
after `validateForm` no error indicator is left under the parent: validating
the second field removed the indicator of the first. -/
theorem validateForm_shared_parent_refuted :
    emptyNameField ∈ requiredInputs sharedParentForm ∧
    (validateField (freshPage sharedParentTree "Send") emptyNameField).1 = false ∧
    (validateField (freshPage sharedParentTree "Send") emptyNameField).2.tree.errsUnder 0
      = ["This field is required".toList] ∧
    (validateForm (freshPage sharedParentTree "Send") sharedParentForm).2.tree.errsUnder
      emptyNameField.parent = [] := by
  refine ⟨?_, ?_, ?_, ?_⟩
  · simp [requiredInputs, sharedParentForm, emptyNameField]
  · decide
  · decide
  · decide

/-- C7, amended: when the parent elements of the checked fields are in the
document, pairwise different with none inside another, and each holds at most
one error indicator beforehand, then after `validateForm` every checked field
that is invalid has under its parent exactly one error indicator, carrying
that field's reason, and every checked field that is valid has none. -/
theorem validateForm_indicators (pg : Page) (form : Form)
    (hpresent : ∀ f ∈ requiredInputs form, pg.tree.hasElem f.parent = true)
    (hapart : (requiredInputs form).Pairwise
      (fun f g => Dom.apart f.parent g.parent pg.tree = true))
    (hone : ∀ f ∈ requiredInputs form, (pg.tree.errsUnder f.parent).length ≤ 1) :
    ∀ f ∈ requiredInputs form,
      (validateForm pg form).2.tree.errsUnder f.parent =
        if (validateField pg f).1 then [] else [(checkField f).2] := by
  intro f hf
  rw [validateForm_eq, validateField_fst]
  exact foldl_validateField_indicators _ pg hpresent hapart hone f hf

theorem validateForm_indicators_witness :
    (∀ f ∈ requiredInputs twoGroupsForm,
      (freshPage twoGroupsTree "Send").tree.hasElem f.parent = true) ∧
    (requiredInputs twoGroupsForm).Pairwise
      (fun f g => Dom.apart f.parent g.parent (freshPage twoGroupsTree "Send").tree = true) ∧
    (∀ f ∈ requiredInputs twoGroupsForm,
      ((freshPage twoGroupsTree "Send").tree.errsUnder f.parent).length ≤ 1) ∧
    ∀ f ∈ requiredInputs twoGroupsForm,
      (validateForm (freshPage twoGroupsTree "Send") twoGroupsForm).2.tree.errsUnder f.parent =
        if (validateField (freshPage twoGroupsTree "Send") f).1 then []
        else [(checkField f).2] :=
  ⟨by decide, by decide, by decide,
    validateForm_indicators (freshPage twoGroupsTree "Send") twoGroupsForm
      (by decide) (by decide) (by decide)⟩

/-! ## Failure, rejection and the state machine: the claims -/

/-- C11, as stated, fails: with status 422 and a body whose message is an
object that has a member `toString` of its own, the message field is not empty
and yet no text of it is shown: the concatenation `"Error: " + message` throws,
and the one notification carries the text of the `catch` callback. -/
theorem submit_failure_unprintable_message_refuted :
    sentPage.pending = ["Send Message"] ∧
    unprintableMessageResponse.status = 422 ∧
    unprintableMessageResponse.json = ResponseJson.value JSVal.unprintable ∧
    JSVal.unprintable.truthy = true ∧
    (settle sentPage 0 (Outcome.response unprintableMessageResponse)).notifications =
      [("Something went wrong! Please try again or contact me directly via email.".toList,
        "error")] := by
  decide

/-- C11, amended: when the request of a valid submission fails (the network
fails, or the response has a status other than 200) the handler does not send
the window anywhere and shows exactly one notification, of type `error`.  Its
text is "Error: " followed by the message of the response body when the
message is truthy and has a string form, as every non-empty string has, and a
fixed fallback text otherwise: when the message is missing or falsy, when it
has no string form, when the body is not a JSON value with members, when the
network fails.  Afterwards the submit button is enabled and has the content it
had before the submission started.  With status 422 and the message `bad
email` the text is "Error: bad email". -/
theorem submit_failure_restores (pg : Page) (form : Form) (outcome : Outcome)
    (hvalid : (validateForm pg form).1 = true)
    (hfail : ∀ r, outcome = Outcome.response r → r.status ≠ 200) :
    (settle (submitHandler pg form) pg.pending.length outcome).location = pg.location ∧
    (settle (submitHandler pg form) pg.pending.length outcome).btnHTML = pg.btnHTML ∧
    (settle (submitHandler pg form) pg.pending.length outcome).btnDisabled = false ∧
    ∃ text,
      (settle (submitHandler pg form) pg.pending.length outcome).notifications =
        pg.notifications.tail ++ [(text, "error")] ∧
      (∀ r m shown, outcome = Outcome.response r → r.json = ResponseJson.value m →
        m.truthy = true → m.toStr = some shown → text = "Error: ".toList ++ shown) ∧
      (∀ r msg, outcome = Outcome.response r → r.json = ResponseJson.value (JSVal.str msg) →
        msg ≠ [] → text = "Error: ".toList ++ msg ∧ msg <:+: text) ∧
      (∀ r m, outcome = Outcome.response r → r.json = ResponseJson.value m →
        m.truthy = false → text = "Error: Something went wrong!".toList) ∧
      (∀ r m, outcome = Outcome.response r → r.json = ResponseJson.value m →
        m.truthy = true → m.toStr = none →
        text =
          "Something went wrong! Please try again or contact me directly via email.".toList) ∧
      ((∀ r m, outcome = Outcome.response r → r.json ≠ ResponseJson.value m) →
        text =
          "Something went wrong! Please try again or contact me directly via email.".toList) ∧
      (outcome = Outcome.response badEmailResponse → text = "Error: bad email".toList) := by
  have hrest := validateForm_rest pg form
  simp only [Page.rest, Prod.mk.injEq] at hrest
  obtain ⟨_, _, _, _, hnot, hloc⟩ := hrest
  have hsub := submitHandler_valid pg form hvalid
  have hp : (submitHandler pg form).pending.get? pg.pending.length = some pg.btnHTML := by
    rw [hsub]
    simp
  have hn : (submitHandler pg form).notifications = pg.notifications := by
    rw [hsub]
    exact hnot
  have hl : (submitHandler pg form).location = pg.location := by
    rw [hsub]
    exact hloc
  obtain ⟨h1, h2, h3, _, _, text, h4, h5, h7⟩ :=
    settle_failure (submitHandler pg form) pg.pending.length pg.btnHTML outcome hp hfail
  have hshown : ∀ r m shown, outcome = Outcome.response r → r.json = ResponseJson.value m →
      m.truthy = true → m.toStr = some shown → text = "Error: ".toList ++ shown := by
    intro r m shown ho hj ht hs
    rw [h5 r m ho hj, (errorText_cases m).1 shown ht hs]
    rfl
  refine ⟨h1.trans hl, h2, h3, text, ?_, hshown, ?_, ?_, ?_, h7, ?_⟩
  · rw [h4, hn]
  · intro r msg ho hj hne
    have ht : (JSVal.str msg).truthy = true := by
      simp only [JSVal.truthy, bne_iff_ne, ne_eq]
      exact hne
    have := hshown r (JSVal.str msg) msg ho hj ht rfl
    refine ⟨this, ?_⟩
    rw [this]
    exact (List.suffix_append _ _).isInfix
  · intro r m ho hj ht
    rw [h5 r m ho hj, (errorText_cases m).2.2 ht]
    rfl
  · intro r m ho hj ht hs
    rw [h5 r m ho hj, (errorText_cases m).2.1 ht hs]
    rfl
  · intro ho
    exact hshown badEmailResponse (JSVal.str "bad email".toList) "bad email".toList ho
      (by decide) (by decide) (by decide)

theorem submit_failure_restores_witness :
    (validateForm (freshPage oneFieldTree "Send Message") twoTopicsForm).1 = true ∧
    (∀ r, Outcome.response badEmailResponse = Outcome.response r → r.status ≠ 200) ∧
    (settle (submitHandler (freshPage oneFieldTree "Send Message") twoTopicsForm) 0
      (Outcome.response badEmailResponse)).btnHTML = "Send Message" ∧
    (settle (submitHandler (freshPage oneFieldTree "Send Message") twoTopicsForm) 0
      (Outcome.response badEmailResponse)).btnDisabled = false ∧
    (settle (submitHandler (freshPage oneFieldTree "Send Message") twoTopicsForm) 0
      (Outcome.response badEmailResponse)).notifications =
        [("Error: bad email".toList, "error")] :=
  have h := submit_failure_restores (freshPage oneFieldTree "Send Message") twoTopicsForm
    (Outcome.response badEmailResponse) (by decide)
    (by intro r hr; cases hr; decide)
  ⟨by decide, by intro r hr; cases hr; decide, h.2.1, h.2.2.1, by decide⟩

/-- C12, as stated, fails: a response with status 200 whose JSON body signals
failure (its member `success` is `false`) is taken for a success: the window
is sent to `thankyou.html` and no notification is shown. -/
theorem settle_ok_failure_body_refuted :
    failureMembers.lookup "success".toList = some (JSVal.bool false) ∧
    okFailureResponse.status = 200 ∧
    okFailureResponse.json = (JsonBody.object failureMembers).read ∧
    sentPage.pending = ["Send Message"] ∧
    (settle sentPage 0 (Outcome.response okFailureResponse)).location = some "thankyou.html" ∧
    (settle sentPage 0 (Outcome.response okFailureResponse)).notifications = [] := by
  decide

/-- C12, amended: the handler treats a response as a remote rejection (an
error notification, the window sent nowhere) whenever its status is other than
200; a response with status 200 and a JSON object for a body is treated as a
success whatever members the body has, a member that signals failure
included. -/
theorem settle_rejection_by_status (pg : Page) (i : Nat) (originalContent : String)
    (r : Response) (hpending : pg.pending.get? i = some originalContent) :
    (r.status ≠ 200 →
      (settle pg i (Outcome.response r)).location = pg.location ∧
      ∃ text, (settle pg i (Outcome.response r)).notifications =
        pg.notifications.tail ++ [(text, "error")]) ∧
    (r.status = 200 → ∀ members, r.json = (JsonBody.object members).read →
      (settle pg i (Outcome.response r)).location = some "thankyou.html" ∧
      (settle pg i (Outcome.response r)).notifications = pg.notifications) := by
  constructor
  · intro hs
    obtain ⟨h1, _, _, _, _, text, h4, _⟩ :=
      settle_failure pg i originalContent (Outcome.response r) hpending
        (fun r2 h => by cases h; exact hs)
    exact ⟨h1, text, h4⟩
  · intro hs members hj
    have hjson : r.json ≠ ResponseJson.rejects := by
      rw [hj]
      simp [JsonBody.read]
    obtain ⟨h1, h2, _⟩ := settle_status_ok pg i originalContent r hpending hs hjson
    exact ⟨h1, h2⟩

theorem settle_rejection_by_status_witness :
    sentPage.pending.get? 0 = some "Send Message" ∧
    (badEmailResponse.status ≠ 200 →
      (settle sentPage 0 (Outcome.response badEmailResponse)).location = sentPage.location ∧
      ∃ text, (settle sentPage 0 (Outcome.response badEmailResponse)).notifications =
        sentPage.notifications.tail ++ [(text, "error")]) ∧
    (okFailureResponse.status = 200 →
      ∀ members, okFailureResponse.json = (JsonBody.object members).read →
      (settle sentPage 0 (Outcome.response okFailureResponse)).location
        = some "thankyou.html" ∧
      (settle sentPage 0 (Outcome.response okFailureResponse)).notifications
        = sentPage.notifications) :=
  ⟨by decide,
    (settle_rejection_by_status sentPage 0 "Send Message" badEmailResponse (by decide)).1,
    (settle_rejection_by_status sentPage 0 "Send Message" okFailureResponse (by decide)).2⟩

/-- C13, as stated, fails: the listener does not look at the submit control.
When a second `submit` event reaches it while the first request is pending,
two requests are in flight; when the first of them fails the button is enabled
although the second is still pending; and when the second has failed too the
button is left with the busy content. -/
theorem run_two_in_flight_refuted :
    (freshPage oneFieldTree "Send Message").pending = [] ∧
    (freshPage oneFieldTree "Send Message").btnDisabled = false ∧
    (run deliverAlways (freshPage oneFieldTree "Send Message")
      (doubleSubmitRun.take 2)).pending.length = 2 ∧
    (run deliverAlways (freshPage oneFieldTree "Send Message")
      (doubleSubmitRun.take 2)).requests.length = 2 ∧
    (run deliverAlways (freshPage oneFieldTree "Send Message") doubleSubmitRun).pending ≠ [] ∧
    (run deliverAlways (freshPage oneFieldTree "Send Message")
      doubleSubmitRun).btnDisabled = false ∧
    (run deliverAlways (freshPage oneFieldTree "Send Message")
      (doubleSubmitRun ++ [Event.settled 0 Outcome.networkError])).pending = [] ∧
    (run deliverAlways (freshPage oneFieldTree "Send Message")
      (doubleSubmitRun ++ [Event.settled 0 Outcome.networkError])).btnHTML = sendingHTML := by
  decide

/-- C13, amended: when `submit` events reach the listener only while the submit
button is enabled, every state reached from a loaded page (button enabled,
nothing pending) has at most one request pending; while one is pending the
button is disabled, and the pending request has captured the content the
button had at load; when the request settles, whatever the outcome, the button
is enabled again with that content. -/
theorem run_one_in_flight (deliver : Page → Bool)
    (hdeliver : ∀ pg, pg.btnDisabled = true → deliver pg = false)
    (pg0 : Page) (hnone : pg0.pending = []) (henabled : pg0.btnDisabled = false)
    (events : List Event) :
    (run deliver pg0 events).pending.length ≤ 1 ∧
    ((run deliver pg0 events).pending ≠ [] → (run deliver pg0 events).btnDisabled = true) ∧
    (∀ label ∈ (run deliver pg0 events).pending, label = pg0.btnHTML) ∧
    ((run deliver pg0 events).pending = [] →
      (run deliver pg0 events).btnDisabled = false ∧
      (run deliver pg0 events).btnHTML = pg0.btnHTML) ∧
    (∀ outcome, (run deliver pg0 events).pending ≠ [] →
      (settle (run deliver pg0 events) 0 outcome).pending = [] ∧
      (settle (run deliver pg0 events) 0 outcome).btnDisabled = false ∧
      (settle (run deliver pg0 events) 0 outcome).btnHTML = pg0.btnHTML) := by
  have hinv : oneAtATime pg0.btnHTML (run deliver pg0 events) :=
    run_oneAtATime deliver hdeliver pg0.btnHTML events pg0 (Or.inl ⟨hnone, henabled, rfl⟩)
  rcases hinv with ⟨hp, hb, hl⟩ | ⟨hp, hb, hl⟩
  · refine ⟨by simp [hp], fun h => absurd hp h, by simp [hp], fun _ => ⟨hb, hl⟩,
      fun _ h => absurd hp h⟩
  · refine ⟨by simp [hp], fun _ => hb, by simp [hp], fun h => by simp [hp] at h, ?_⟩
    intro outcome _
    obtain ⟨h1, h2, h3, _⟩ :=
      settle_button (run deliver pg0 events) 0 pg0.btnHTML outcome (by simp [hp])
    refine ⟨?_, h2, h1⟩
    rw [h3, hp]
    rfl

theorem run_one_in_flight_witness :
    (∀ pg : Page, pg.btnDisabled = true → viaSubmitControl pg = false) ∧
    (freshPage oneFieldTree "Send Message").pending = [] ∧
    (freshPage oneFieldTree "Send Message").btnDisabled = false ∧
    (run viaSubmitControl (freshPage oneFieldTree "Send Message")
      (doubleSubmitRun.take 2)).pending = ["Send Message"] ∧
    (run viaSubmitControl (freshPage oneFieldTree "Send Message")
      (doubleSubmitRun.take 2)).pending.length ≤ 1 ∧
    (run viaSubmitControl (freshPage oneFieldTree "Send Message")
      doubleSubmitRun).btnHTML = "Send Message" :=
  have hd : ∀ pg : Page, pg.btnDisabled = true → viaSubmitControl pg = false :=
    fun pg h => by simp [viaSubmitControl, h]
  ⟨hd, rfl, rfl, by decide,
    (run_one_in_flight viaSubmitControl hd (freshPage oneFieldTree "Send Message") rfl rfl
      (doubleSubmitRun.take 2)).1,
    ((run_one_in_flight viaSubmitControl hd (freshPage oneFieldTree "Send Message") rfl rfl
      doubleSubmitRun).2.2.2.1 (by decide)).2⟩

/-- C14: on a page that has the toggle, `initThemeToggle` reads the stored
value and puts the body in light mode exactly when the value is `light` (a
missing value counts as `dark`, and the stored value is left as it is); after
every click of any sequence of clicks the stored value is `light` or `dark`,
and is `light` exactly when the body is in light mode, so that two further
clicks bring back the value the click before them wrote. -/
theorem theme_stored_follows_mode (st0 : ThemePage) (h : st0.hasToggle = true) :
    (initThemeToggle st0).lightMode = (st0.lightMode || decide (st0.stored = some "light")) ∧
    (st0.lightMode = false →
      ((initThemeToggle st0).lightMode = true ↔ st0.stored = some "light")) ∧
    (st0.stored = none → (initThemeToggle st0).lightMode = st0.lightMode) ∧
    (initThemeToggle st0).stored = st0.stored ∧
    ∀ n : Nat,
      ((themeClick^[n + 1] (initThemeToggle st0)).stored = some "light" ∨
        (themeClick^[n + 1] (initThemeToggle st0)).stored = some "dark") ∧
      ((themeClick^[n + 1] (initThemeToggle st0)).stored = some "light" ↔
        (themeClick^[n + 1] (initThemeToggle st0)).lightMode = true) ∧
      (themeClick^[n + 3] (initThemeToggle st0)).stored =
        (themeClick^[n + 1] (initThemeToggle st0)).stored := by
  have hl := initThemeToggle_lightMode st0 h
  refine ⟨hl, ?_, ?_, initThemeToggle_stored st0, ?_⟩
  · intro h0
    rw [hl, h0]
    simp
  · intro hs
    rw [hl, hs]
    simp
  · intro n
    have hlis : ∀ k, (themeClick^[k] (initThemeToggle st0)).listening = true :=
      iterate_themeClick_listening _ (initThemeToggle_listening st0 h)
    have hst : ∀ k, (themeClick^[k + 1] (initThemeToggle st0)).stored =
        some (if (themeClick^[k + 1] (initThemeToggle st0)).lightMode then "light"
          else "dark") := by
      intro k
      rw [Function.iterate_succ_apply']
      exact themeClick_stored _ (hlis k)
    have hmode : ∀ k, (themeClick^[k + 1] (initThemeToggle st0)).lightMode =
        !(themeClick^[k] (initThemeToggle st0)).lightMode := by
      intro k
      rw [Function.iterate_succ_apply']
      exact themeClick_lightMode _ (hlis k)
    have hne : ¬ ("dark" : String) = "light" := by decide
    refine ⟨?_, ?_, ?_⟩
    · rw [hst n]
      cases (themeClick^[n + 1] (initThemeToggle st0)).lightMode <;> simp
    · rw [hst n]
      cases (themeClick^[n + 1] (initThemeToggle st0)).lightMode <;> simp [hne]
    · rw [hst (n + 2), hst n, hmode (n + 2), hmode (n + 1)]
      simp

theorem theme_stored_follows_mode_witness :
    darkThemePage.hasToggle = true ∧
    (initThemeToggle darkThemePage).lightMode = false ∧
    (themeClick (initThemeToggle darkThemePage)).stored = some "light" ∧
    (themeClick (themeClick (initThemeToggle darkThemePage))).stored = some "dark" ∧
    (initThemeToggle { darkThemePage with stored := some "light" }).lightMode = true ∧
    ((themeClick^[0 + 1] (initThemeToggle darkThemePage)).stored = some "light" ↔
      (themeClick^[0 + 1] (initThemeToggle darkThemePage)).lightMode = true) :=
  ⟨by decide, by decide, by decide, by decide, by decide,
    ((theme_stored_follows_mode darkThemePage (by decide)).2.2.2.2 0).2.1⟩

end Portfolio
